import Mathlib

/-!
# Verification of the airspace viewer's decoder and lane-layout logic

Shallow embedding of the two in-scope components of the repository:

* the airspace lane layout engine of
  `src/components/AirspacesDetailsPanel.tsx` (`doAirspacesOverlap`,
  `assignLanes`, and the per-band width computation of the chart render),
* the aviation report decoder: `calculateWindComponents` of
  `src/components/AirportsDetailsPanel.tsx`, `parseCloudLayers` of the
  weather dialog, `parseDMSToDecimal` / `parseNotamCoordinates` of
  `utils/notamCoordinates.ts`, and `parseNotamDate`, `parseSchedule`,
  `isWithinSchedule`, `getNotamStatus` of `src/components/NotamDialog.tsx`.

JavaScript numbers are modelled as exact rationals (`ℚ`) or integers
(IEEE-754 rounding of the source is not modelled; every claim checked here
is stated with tolerances or at values where the float computation is
exact), strings as Lean `String` / `List Char` (the source's regular
expressions are hand-compiled to scanners with the same backtracking
semantics, noted at each definition), `null`/`undefined` as `Option`, and
the wall clock (`new Date()`) as an explicit `now : Int` argument holding
epoch milliseconds.
-/

/-! ## JavaScript string primitives -/

/-- The characters accepted by the JavaScript `\s` character class (ASCII
part; the Unicode space characters never occur in the inputs considered
and behave identically in every statement below). -/
def jsWS (c : Char) : Bool :=
  c = ' ' || c = '\t' || c = '\n' || c = '\r' || c = '\x0b' || c = '\x0c'

/-- ASCII decimal digit test (`\d`). -/
def isDig (c : Char) : Bool :=
  48 ≤ c.toNat && c.toNat ≤ 57

/-- ASCII letter test (what `[A-Z]` with the `i` flag accepts). -/
def isAsciiLetter (c : Char) : Bool :=
  (65 ≤ c.toNat && c.toNat ≤ 90) || (97 ≤ c.toNat && c.toNat ≤ 122)

/-- ASCII uppercase letter test (`[A-Z]` without the `i` flag). -/
def isUpperLetter (c : Char) : Bool :=
  65 ≤ c.toNat && c.toNat ≤ 90

/-- JavaScript word character (`\w`), for the `\b` boundary test. -/
def isWordChar (c : Char) : Bool :=
  isAsciiLetter c || isDig c || c = '_'

/-- Value of a decimal digit character. -/
def digVal (c : Char) : Nat := c.toNat - 48

/-- Fold a digit list into a natural number, most significant first. -/
def decFold (ds : List Char) : Nat :=
  ds.foldl (fun acc c => 10 * acc + digVal c) 0

/-- Hexadecimal digit test. -/
def isHexDig (c : Char) : Bool :=
  isDig c || (65 ≤ c.toNat && c.toNat ≤ 70) || (97 ≤ c.toNat && c.toNat ≤ 102)

/-- Value of a hexadecimal digit character. -/
def hexVal (c : Char) : Nat :=
  if isDig c then c.toNat - 48
  else if 65 ≤ c.toNat && c.toNat ≤ 70 then c.toNat - 55
  else c.toNat - 87

/-- Fold a hex digit list into a natural number. -/
def hexFold (ds : List Char) : Nat :=
  ds.foldl (fun acc c => 16 * acc + hexVal c) 0

/-- Does the input start with the hexadecimal marker `0x`/`0X`? -/
def hexPrefix (l : List Char) : Bool :=
  match l with
  | a :: b :: _ => a = '0' && (b = 'x' || b = 'X')
  | _ => false

/-- The unsigned part of `parseInt`: a `0x`-prefixed hexadecimal-digit
run or a decimal-digit prefix; `none` models `NaN` (no digits). -/
def jsParseUnsigned (l : List Char) : Option Nat :=
  if hexPrefix l then
    match (l.drop 2).takeWhile isHexDig with
    | [] => none
    | hs => some (hexFold hs)
  else
    match l.takeWhile isDig with
    | [] => none
    | ds => some (decFold ds)

/-- JavaScript `parseInt(s)` (radix unspecified): skips leading
whitespace, takes an optional sign, recognises a `0x`/`0X` prefix as
hexadecimal, otherwise parses the longest decimal-digit prefix; `none`
models `NaN`.  (Precision loss of huge values in IEEE doubles is not
modelled; no claim depends on it.) -/
def jsParseIntCore (l : List Char) : Option Int :=
  match l.dropWhile jsWS with
  | '-' :: t => (jsParseUnsigned t).map (fun n => -(n : Int))
  | '+' :: t => (jsParseUnsigned t).map (fun n => (n : Int))
  | t => (jsParseUnsigned t).map (fun n => (n : Int))

/-- `parseInt` on a Lean string. -/
def jsParseInt (s : String) : Option Int := jsParseIntCore s.data

/-- `parseInt` where the argument may be `undefined` (JavaScript coerces
`undefined` to the string `"undefined"`, which parses as `NaN`). -/
def jsParseIntOpt (s : Option String) : Option Int :=
  s.bind jsParseInt

/-- JavaScript `String.prototype.split` with a single-character
separator: no limit, empty pieces preserved. -/
def splitOnCharCore (sep : Char) : List Char → List (List Char)
  | [] => [[]]
  | c :: t =>
    if c = sep then [] :: splitOnCharCore sep t
    else
      match splitOnCharCore sep t with
      | [] => [[c]]
      | p :: ps => (c :: p) :: ps

/-- `s.split(sep)` for a one-character separator. -/
def splitOnChar (s : String) (sep : Char) : List String :=
  (splitOnCharCore sep s.data).map (fun l => ⟨l⟩)

/-- JavaScript `s.substring(a, b)` with the usual index clamping
(for `0 ≤ a ≤ b` it is `take`/`drop`). -/
def jsSubstring (s : String) (a b : Nat) : String :=
  ⟨(s.data.take b).drop a⟩

/-- JavaScript `s.slice(a, b)` for non-negative `a ≤ b` (the only uses in
the source). -/
def jsSlice (s : String) (a b : Nat) : String :=
  ⟨(s.data.take b).drop a⟩

/-- JavaScript `s.slice(a)` for non-negative `a`. -/
def jsSliceFrom (s : String) (a : Nat) : String :=
  ⟨s.data.drop a⟩

/-- JavaScript `s.slice(-1)`: the last character (empty for `""`). -/
def jsSliceLast (s : String) : String :=
  match s.data.getLast? with
  | none => ""
  | some c => ⟨[c]⟩

/-- JavaScript `s.slice(0, -1)`: everything but the last character. -/
def jsSliceDropLast (s : String) : String :=
  ⟨s.data.dropLast⟩

/-- ASCII upper-casing, JavaScript `toUpperCase` on the inputs in scope. -/
def jsToUpper (s : String) : String :=
  ⟨s.data.map Char.toUpper⟩

/-- Substring containment on char lists (JavaScript `includes`). -/
def containsSub : List Char → List Char → Bool
  | l, sub =>
    sub.isPrefixOf l ||
      match l with
      | [] => false
      | _ :: t => containsSub t sub

/-- JavaScript `s.includes(sub)`. -/
def jsIncludes (s sub : String) : Bool :=
  containsSub s.data sub.data

/-- JavaScript `s.trim()` (whitespace from both ends). -/
def jsTrim (s : String) : String :=
  ⟨((s.data.dropWhile jsWS).reverse.dropWhile jsWS).reverse⟩

/-! ## Airspace lane layout engine (`AirspacesDetailsPanel.tsx`)

`ProcessedAirspace` keeps the fields the layout logic reads (`lowerFt`,
`upperFt`) plus the identifying `index`; the remaining fields of the
source record (name, class, type, display strings) are carried along
unchanged by `assignLanes` and never inspected, so they are omitted. -/

structure ProcessedAirspace where
  index : Nat
  lowerFt : ℚ
  upperFt : ℚ
deriving DecidableEq, Repr

/-- `doAirspacesOverlap` — two airspaces overlap if one does not end
before (or exactly where) the other starts. -/
def doAirspacesOverlap (a b : ProcessedAirspace) : Bool :=
  !(a.upperFt ≤ b.lowerFt || b.upperFt ≤ a.lowerFt)

structure AirspaceWithLane extends ProcessedAirspace where
  lane : Nat
deriving DecidableEq, Repr

structure AssignLanesResult where
  airspacesWithLanes : List AirspaceWithLane
  totalLanes : Nat
deriving DecidableEq, Repr

/-- The inner loop of `assignLanes`: index of the first lane whose
members all fail `doAirspacesOverlap` with the candidate; equals the
number of lanes when every lane has an overlap (the `assignedLane = -1`
path of the source, which then opens a new lane at that index). -/
def findLane (x : ProcessedAirspace) : List (List ProcessedAirspace) → Nat
  | [] => 0
  | lane :: rest =>
    if lane.any (fun other => doAirspacesOverlap x other) then
      findLane x rest + 1
    else 0

/-- `lanes[l].push(x)`, creating the lane first when `l` is the current
length (the `lanes.push([])` path of the source). -/
def pushAt : List (List ProcessedAirspace) → Nat → ProcessedAirspace →
    List (List ProcessedAirspace)
  | [], _, x => [[x]]
  | lane :: rest, 0, x => (lane ++ [x]) :: rest
  | lane :: rest, n + 1, x => lane :: pushAt rest n x

/-- The loop of `assignLanes` over the input list, threading the mutable
`lanes` array; returns the annotated output list and the final lanes. -/
def assignLanesAux : List ProcessedAirspace → List (List ProcessedAirspace) →
    List AirspaceWithLane × List (List ProcessedAirspace)
  | [], lanes => ([], lanes)
  | x :: rest, lanes =>
    let l := findLane x lanes
    let r := assignLanesAux rest (pushAt lanes l x)
    (⟨x, l⟩ :: r.1, r.2)

/-- `assignLanes` of the source. -/
def assignLanes (airspaces : List ProcessedAirspace) : AssignLanesResult :=
  let r := assignLanesAux airspaces []
  ⟨r.1, r.2.length⟩

/-- The chart-render step (lines 235–248 of the panel): the airspaces
overlapping `a` within the rendered list (the filter includes `a`
itself whenever `a` overlaps itself, i.e. whenever `lowerFt < upperFt`),
projected to their lane indices. -/
def activeLanes (rendered : List AirspaceWithLane) (a : AirspaceWithLane) :
    List Nat :=
  (rendered.filter
      (fun other => doAirspacesOverlap a.toProcessedAirspace other.toProcessedAirspace)).map
    (fun other => other.lane)

/-- `numActiveLanes = Math.max(...activeLanes) + 1`.  `Math.max` of an
empty spread is `-Infinity` (making the width `-0` in JS); that case is
modelled as `none`. -/
def numActiveLanes (rendered : List AirspaceWithLane) (a : AirspaceWithLane) :
    Option Nat :=
  match activeLanes rendered a with
  | [] => none
  | l :: ls => some ((ls.foldl max l) + 1)

/-- `laneWidth = 100 / numActiveLanes`, the rendered width in percent. -/
def laneWidthPercent (rendered : List AirspaceWithLane)
    (a : AirspaceWithLane) : Option ℚ :=
  (numActiveLanes rendered a).map (fun n => 100 / (n : ℚ))

/-- Modelled from the spec (for comparison with the code's width): the
width the specification describes, `100%` divided by the number of
distinct lane indices used by bands overlapping the region. -/
def specWidthPercent (rendered : List AirspaceWithLane)
    (a : AirspaceWithLane) : Option ℚ :=
  match (activeLanes rendered a).dedup.length with
  | 0 => none
  | n => some (100 / (n : ℚ))

/-! ## Lemmas about the lane engine -/

/-- `lanes[l]` as read by the source loops (`[]` out of range). -/
def getLane (lanes : List (List ProcessedAirspace)) (l : Nat) :
    List ProcessedAirspace :=
  lanes.getD l []

/-! ## Wind components (`AirportsDetailsPanel.tsx`)

Real-number model of the trigonometric projection; `Math.round(x)` is
`⌊x + 1/2⌋` (round half toward `+∞`), and the IEEE evaluation error of
the source is absorbed by the `±1` tolerance of the claim. -/

/-- JavaScript `Math.round`. -/
noncomputable def jsRound (x : ℝ) : ℤ := ⌊x + 1 / 2⌋

/-- `calculateWindComponents` — headwind/crosswind projection of the wind
vector onto a runway heading, angles in degrees. -/
noncomputable def calculateWindComponents (windDir windSpeed runwayHeading : ℝ) :
    ℤ × ℤ :=
  let windRad := windDir * Real.pi / 180
  let runwayRad := runwayHeading * Real.pi / 180
  let angleDiff := windRad - runwayRad
  let headwind := windSpeed * Real.cos angleDiff
  let crosswind := windSpeed * Real.sin angleDiff
  (jsRound headwind, jsRound |crosswind|)

/-! ## Cloud layers (`parseCloudLayers` of the weather dialog)

The `metar.split(/\s(RMK|TEMPO|BECMG)\s/)[0]` prefix and the global match
of `/(NSC|SKC|CLR|CAVOK|FEW|SCT|BKN|OVC)(\d{3})?(CB|TCU)?/g` are compiled
to scanners; `Array.prototype.sort` with comparator
`a.altitude - b.altitude` (a stable ascending sort) is modelled by the
stable `List.insertionSort`. -/

structure CloudLayer where
  coverage : String
  altitude : Int
  coveragePercent : Nat
  label : String
deriving DecidableEq, Repr

/-- The keywords of the split regex, in alternation order. -/
def rmkKeywords : List (List Char) :=
  [['R', 'M', 'K'], ['T', 'E', 'M', 'P', 'O'], ['B', 'E', 'C', 'M', 'G']]

/-- Is the head character (if any) whitespace?  (The trailing `\s` of the
split regex.) -/
def hasWSHead : List Char → Bool
  | [] => false
  | d :: _ => jsWS d

/-- Does `/\s(RMK|TEMPO|BECMG)\s/` match at the head of `l`? -/
def splitMatchAt : List Char → Bool
  | [] => false
  | c :: rest =>
    jsWS c &&
      rmkKeywords.any (fun kw =>
        kw.isPrefixOf rest && hasWSHead (rest.drop kw.length))

/-- The prefix of `l` before the first match of the split regex (the
`[0]` entry of the JavaScript `split`). -/
def splitBeforeCore : List Char → List Char
  | [] => []
  | c :: t => if splitMatchAt (c :: t) then [] else c :: splitBeforeCore t

/-- `metar.split(/\s(RMK|TEMPO|BECMG)\s/)[0]`. -/
def splitBeforeRmk (s : String) : String :=
  ⟨splitBeforeCore s.data⟩

/-- The coverage codes of the cloud regex, in alternation order. -/
def cloudCodes : List (List Char) :=
  [['N', 'S', 'C'], ['S', 'K', 'C'], ['C', 'L', 'R'], ['C', 'A', 'V', 'O', 'K'],
    ['F', 'E', 'W'], ['S', 'C', 'T'], ['B', 'K', 'N'], ['O', 'V', 'C']]

/-- First alternative of `codes` that is a prefix of `l` (regex
alternation: leftmost alternative wins at a given position). -/
def firstPrefixCode (codes : List (List Char)) (l : List Char) :
    Option (List Char) :=
  match codes with
  | [] => none
  | code :: rest =>
    if code.isPrefixOf l then some code else firstPrefixCode rest l

/-- One match attempt of the cloud regex at the head of `l`: a coverage
code, an optional `\d{3}` group, an optional `CB`/`TCU` group; returns
the matched text and the remaining input. -/
def cloudTokenAt (l : List Char) : Option (List Char × List Char) :=
  match firstPrefixCode cloudCodes l with
  | none => none
  | some code =>
    let rest := l.drop code.length
    let dp : List Char × List Char :=
      match rest with
      | d1 :: d2 :: d3 :: r =>
        if isDig d1 && isDig d2 && isDig d3 then ([d1, d2, d3], r)
        else ([], rest)
      | _ => ([], rest)
    let cp : List Char × List Char :=
      if ['C', 'B'].isPrefixOf dp.2 then (['C', 'B'], dp.2.drop 2)
      else if ['T', 'C', 'U'].isPrefixOf dp.2 then (['T', 'C', 'U'], dp.2.drop 3)
      else ([], dp.2)
    some (code ++ dp.1 ++ cp.1, cp.2)

/-- The global (`/g`) match loop: scan left to right, emitting each match
and resuming after its end.  Matches are nonempty, so `l.length` steps of
fuel always suffice. -/
def cloudMatchesGo (fuel : Nat) (l : List Char) : List (List Char) :=
  match fuel with
  | 0 => []
  | fuel + 1 =>
    match l with
    | [] => []
    | _ :: t =>
      match cloudTokenAt l with
      | some (m, rest) => m :: cloudMatchesGo fuel rest
      | none => cloudMatchesGo fuel t

/-- `mainReport.match(/.../g)` (the `null` result of a match-less string
and the empty list behave identically downstream). -/
def cloudMatches (l : List Char) : List (List Char) :=
  cloudMatchesGo l.length l

/-- `cloud.match(/(NSC|SKC|CLR|CAVOK|FEW|SCT|BKN|OVC)/)?.[0]`. -/
def firstCodeIn : List Char → Option (List Char)
  | [] => none
  | c :: t =>
    match firstPrefixCode cloudCodes (c :: t) with
    | some code => some code
    | none => firstCodeIn t

/-- `cloud.match(/(\d{3})/)?.[0]`. -/
def firstThreeDigits : List Char → Option (List Char)
  | [] => none
  | d1 :: t =>
    match t with
    | d2 :: d3 :: _ =>
      if isDig d1 && isDig d2 && isDig d3 then some [d1, d2, d3]
      else firstThreeDigits t
    | _ => none

/-- `cloud.match(/(CB|TCU)/)?.[0]`. -/
def firstCbTcu : List Char → Option (List Char)
  | [] => none
  | c :: t =>
    if ['C', 'B'].isPrefixOf (c :: t) then some ['C', 'B']
    else if ['T', 'C', 'U'].isPrefixOf (c :: t) then some ['T', 'C', 'U']
    else firstCbTcu t

/-- The `coverage` lookup table: label and percent per coverage code. -/
def coverageTable (t : String) : Option (String × Nat) :=
  if t = "NSC" then some ("No Significant Clouds", 0)
  else if t = "SKC" then some ("Sky Clear", 0)
  else if t = "CLR" then some ("Clear", 0)
  else if t = "CAVOK" then some ("CAVOK", 0)
  else if t = "FEW" then some ("Few", 25)
  else if t = "SCT" then some ("Scattered", 50)
  else if t = "BKN" then some ("Broken", 75)
  else if t = "OVC" then some ("Overcast", 100)
  else none

/-- The body of the `forEach` push: build a layer from one matched token,
skipping tokens without an altitude group and the clear variants. -/
def cloudLayerOf (cloud : List Char) : Option CloudLayer :=
  let type := ((firstCodeIn cloud).map (fun c => (⟨c⟩ : String))).getD ""
  match firstThreeDigits cloud with
  | none => none
  | some hd =>
    if type ≠ "NSC" ∧ type ≠ "SKC" ∧ type ≠ "CLR" ∧ type ≠ "CAVOK" then
      let label := ((coverageTable type).map Prod.fst).getD type
      let fullLabel :=
        match firstCbTcu cloud with
        | some cb => label ++ " " ++ (⟨cb⟩ : String)
        | none => label
      some
        { coverage := type
          altitude := ((jsParseInt ⟨hd⟩).getD 0) * 100
          coveragePercent := ((coverageTable type).map Prod.snd).getD 0
          label := fullLabel }
    else none

/-- `parseCloudLayers` of the source. -/
def parseCloudLayers (metar : String) : List CloudLayer :=
  let mainReport := splitBeforeRmk metar
  let cloudMatch := cloudMatches mainReport.data
  let layers := cloudMatch.filterMap cloudLayerOf
  List.insertionSort (fun a b => a.altitude ≤ b.altitude) layers

/-! ## NOTAM dates, schedule and status (`NotamDialog.tsx`)

`new Date()` is modelled by an explicit `now : Int` (epoch milliseconds);
a parsed `Date` is `Option (Option Int)` — the outer `none` is JavaScript
`null` (the `"PERM"` and wrong-shape paths of `parseNotamDate`), the
inner `none` is an `Invalid Date` (`NaN` time value, every comparison
false). -/

/-- Days since 1970-01-01 for a civil date (arbitrary year, month in
1..12, arbitrary day — day overflow simply shifts the count, exactly as
`Date.UTC` normalizes it). -/
def epochDays (y m d : Int) : Int :=
  let y' := if m ≤ 2 then y - 1 else y
  let era := y'.fdiv 400
  let yoe := y' - era * 400
  let mp := (m + 9).fmod 12
  let doy := (153 * mp + 2).fdiv 5 + (d - 1)
  let doe := yoe * 365 + yoe.fdiv 4 - yoe.fdiv 100 + doy
  era * 146097 + doe - 719468

/-- `Date.UTC(year, monthIndex, day, hours, minutes)` in epoch
milliseconds; `none` models `NaN` (any `NaN` argument poisons the
result); month indices outside 0..11 wrap into adjacent years and years
0..99 map to 1900..1999, as in JavaScript. -/
def dateUTC (year monthIndex day hours minutes : Option Int) : Option Int :=
  match year, monthIndex, day, hours, minutes with
  | some y, some mi, some d, some h, some mn =>
    let y2 := if 0 ≤ y ∧ y ≤ 99 then y + 1900 else y
    let ym := y2 * 12 + mi
    some (epochDays (ym.fdiv 12) (ym.fmod 12 + 1) d * 86400000 +
      h * 3600000 + mn * 60000)
  | _, _, _, _, _ => none

/-- `parseNotamDate` — input format `"MM/DD/YYYY HHMM"`; `"PERM"` and a
string that does not split into exactly two space-separated parts give
`null` (outer `none`). -/
def parseNotamDate (dateStr : String) : Option (Option Int) :=
  if dateStr = "PERM" then none
  else
    match splitOnChar dateStr ' ' with
    | [date, time] =>
      let dateParts := splitOnChar date '/'
      some (dateUTC (jsParseIntOpt (dateParts.get? 2))
        ((jsParseIntOpt (dateParts.get? 0)).map (fun m => m - 1))
        (jsParseIntOpt (dateParts.get? 1))
        (jsParseInt (jsSubstring time 0 2))
        (jsParseInt (jsSubstring time 2 4)))
    | _ => none

/-- `getUTCDay()` of an epoch-milliseconds instant (1970-01-01 was a
Thursday, day 4). -/
def utcDayOfWeek (ms : Int) : Int := (ms.fdiv 86400000 + 4).fmod 7

/-- `getUTCHours()` of an epoch-milliseconds instant. -/
def utcHours (ms : Int) : Int := (ms.fdiv 3600000).fmod 24

/-- `getUTCMinutes()` of an epoch-milliseconds instant. -/
def utcMinutes (ms : Int) : Int := (ms.fdiv 60000).fmod 60

/-- The lookahead `(?=\s[A-Z]\)|[\n]|$)` of the D-section regex (with the
`i` flag, `[A-Z]` also matches lowercase letters). -/
def lookaheadFieldMarker : List Char → Bool
  | c :: a :: b :: _ => jsWS c && isAsciiLetter a && b = ')'
  | _ => false

/-- The lazy capture `([^\n]*?)` of the D-section regex: grow from the
empty capture until the lookahead (field marker, newline, or end of
input) holds. -/
def captureD : List Char → List Char
  | [] => []
  | c :: rest =>
    if c = '\n' then []
    else if lookaheadFieldMarker (c :: rest) then []
    else c :: captureD rest

/-- Does `D)` (case-insensitive) start here? -/
def headIsDParen : List Char → Bool
  | a :: b :: _ => (a = 'D' || a = 'd') && b = ')'
  | _ => false

/-- First match of `/[\n\s]D\)\s*([^\n]*?)(?=\s[A-Z]\)|[\n]|$)/i`,
returning the captured group.  The greedy `\s*` never needs to
backtrack: with it maximal, the lazy capture always terminates at a
newline or the end of input, so the first position where `\sD\)` matches
yields the match. -/
def matchDSection : List Char → Option (List Char)
  | [] => none
  | c :: rest =>
    if jsWS c && headIsDParen rest then
      some (captureD ((rest.drop 2).dropWhile jsWS))
    else matchDSection rest

/-- Is the head (if any) not a word character?  (The trailing `\b` of
`\b(\d{4})\b`.) -/
def headNotWord : List Char → Bool
  | [] => true
  | e :: _ => !isWordChar e

/-- The global replace `schedule.replace(/\b(\d{4})\b/g, "HH:MM")`: an
isolated run of exactly four digits gains a colon.  The boolean argument
tracks whether the previous character was a word character (the leading
`\b`). -/
def fmtTimesGo : Bool → List Char → List Char
  | prevWord, d1 :: d2 :: d3 :: d4 :: r =>
    if !prevWord && isDig d1 && isDig d2 && isDig d3 && isDig d4 &&
        headNotWord r then
      d1 :: d2 :: ':' :: d3 :: d4 :: fmtTimesGo true r
    else d1 :: fmtTimesGo (isWordChar d1) (d2 :: d3 :: d4 :: r)
  | _, c :: rest => c :: fmtTimesGo (isWordChar c) rest
  | _, [] => []

/-- `parseSchedule` — the trimmed D-section capture with `HHMM` times
formatted as `HH:MM`; `none` when no D-section is found. -/
def parseSchedule (icaoMessage : String) : Option String :=
  (matchDSection icaoMessage.data).map
    (fun raw => ⟨fmtTimesGo false (jsTrim ⟨raw⟩).data⟩)

/-- One attempt of `/(\d{4})-(\d{4})/` at the head of the input. -/
def timeRangeAt : List Char → Option (Nat × Nat)
  | a :: b :: c :: d :: '-' :: e :: f :: g :: h :: _ =>
    if isDig a && isDig b && isDig c && isDig d && isDig e && isDig f &&
        isDig g && isDig h then
      some (decFold [a, b, c, d], decFold [e, f, g, h])
    else none
  | _ => none

/-- First match of `/(\d{4})-(\d{4})/`, as `parseInt`-ed endpoints. -/
def timeRangeSearch : List Char → Option (Nat × Nat)
  | [] => none
  | c :: rest =>
    match timeRangeAt (c :: rest) with
    | some r => some r
    | none => timeRangeSearch rest

/-- One attempt of `/([A-Z]{3})-([A-Z]{3})/` at the head of the input. -/
def dayRangeAt : List Char → Option (String × String)
  | a :: b :: c :: '-' :: d :: e :: f :: _ =>
    if isUpperLetter a && isUpperLetter b && isUpperLetter c &&
        isUpperLetter d && isUpperLetter e && isUpperLetter f then
      some (⟨[a, b, c]⟩, ⟨[d, e, f]⟩)
    else none
  | _ => none

/-- First match of `/([A-Z]{3})-([A-Z]{3})/`. -/
def dayRangeSearch : List Char → Option (String × String)
  | [] => none
  | c :: rest =>
    match dayRangeAt (c :: rest) with
    | some r => some r
    | none => dayRangeSearch rest

/-- The `dayMap` record (Sunday = 0); `none` models an `undefined`
lookup. -/
def dayMap (s : String) : Option Int :=
  if s = "SUN" then some 0
  else if s = "MON" then some 1
  else if s = "TUE" then some 2
  else if s = "WED" then some 3
  else if s = "THU" then some 4
  else if s = "FRI" then some 5
  else if s = "SAT" then some 6
  else none

/-- `Object.entries(dayMap)` in insertion order. -/
def dayEntries : List (String × Int) :=
  [("SUN", 0), ("MON", 1), ("TUE", 2), ("WED", 3), ("THU", 4), ("FRI", 5),
    ("SAT", 6)]

/-- JavaScript `<=` where either side may be `undefined`: any comparison
involving `undefined` is false (`undefined` converts to `NaN`). -/
def jleOpt : Option Int → Option Int → Bool
  | some x, some y => x ≤ y
  | _, _ => false

/-- The wrap-aware time-range test shared by the day-range and single-day
branches. -/
def timeCheckWrap (st en : Nat) (currentTime : Int) : Bool :=
  if st ≤ en then
    decide ((st : Int) ≤ currentTime) && decide (currentTime ≤ (en : Int))
  else
    decide ((st : Int) ≤ currentTime) || decide (currentTime ≤ (en : Int))

/-- The `for (const [dayName, dayNum] of Object.entries(dayMap))` loop of
`isWithinSchedule`: the first day name contained in the upper-cased
schedule decides the result. -/
def singleDayLoop : List (String × Int) → String → Int → Int →
    Option (Nat × Nat) → Bool
  | [], _, _, _, _ => true
  | (name, num) :: rest, upperSched, currentDay, currentTime, tr =>
    if jsIncludes upperSched name then
      if currentDay ≠ num then false
      else
        match tr with
        | some (st, en) => timeCheckWrap st en currentTime
        | none => true
    else singleDayLoop rest upperSched currentDay currentTime tr

/-- `isWithinSchedule` of the source, with the wall clock explicit. -/
def isWithinSchedule (icaoMessage : String) (now : Int) : Bool :=
  match matchDSection icaoMessage.data with
  | none => true
  | some raw =>
    let schedule : String := jsTrim ⟨raw⟩
    let currentDay := utcDayOfWeek now
    let currentTime := utcHours now * 100 + utcMinutes now
    if jsIncludes (jsToUpper schedule) "DAILY" then
      match timeRangeSearch schedule.data with
      | some (st, en) =>
        decide ((st : Int) ≤ currentTime) && decide (currentTime ≤ (en : Int))
      | none => true
    else
      match dayRangeSearch schedule.data with
      | some (d1, d2) =>
        let startDay := dayMap d1
        let endDay := dayMap d2
        let dayInRange :=
          if jleOpt startDay endDay then
            jleOpt startDay (some currentDay) && jleOpt (some currentDay) endDay
          else
            jleOpt startDay (some currentDay) || jleOpt (some currentDay) endDay
        if !dayInRange then false
        else
          match timeRangeSearch schedule.data with
          | some (st, en) => timeCheckWrap st en currentTime
          | none => true
      | none =>
        singleDayLoop dayEntries (jsToUpper schedule) currentDay currentTime
          (timeRangeSearch schedule.data)

inductive NotamStatus
  | upcoming
  | active
  | expired
deriving DecidableEq, Repr

structure NotamStatusResult where
  status : NotamStatus
  label : String
  color : String
  backgroundColor : String
  borderColor : String
deriving DecidableEq, Repr

/-- `start && start > now` of the source: true only for a valid parsed
date strictly in the future (`null` is falsy, an `Invalid Date` compares
false). -/
def dateIsFuture : Option (Option Int) → Int → Bool
  | some (some t), now => now < t
  | _, _ => false

/-- `!end || end > now` of the source: `null` (PERM/malformed shape)
counts as unset, a valid date must be strictly in the future, an
`Invalid Date` is truthy but compares false. -/
def endUnsetOrFuture : Option (Option Int) → Int → Bool
  | none, _ => true
  | some (some t), now => now < t
  | some none, _ => false

/-- `getNotamStatus` of the source, with the wall clock explicit. -/
def getNotamStatus (startDate endDate icaoMessage : String) (now : Int) :
    NotamStatusResult :=
  let start := parseNotamDate startDate
  let endD := parseNotamDate endDate
  if dateIsFuture start now then
    ⟨.upcoming, "Upcoming", "#fc3", "rgba(255, 180, 100, 0.3)",
      "rgba(255, 180, 100, 0.5)"⟩
  else if endUnsetOrFuture endD now then
    let withinSchedule := isWithinSchedule icaoMessage now
    let hasSchedule := (parseSchedule icaoMessage).isSome
    if hasSchedule && !withinSchedule then
      ⟨.active, "Active (Outside Schedule)", "#fc3", "rgba(255, 180, 100, 0.3)",
        "rgba(255, 180, 100, 0.5)"⟩
    else
      ⟨.active, "Active", "#9f9", "rgba(100, 200, 150, 0.3)",
        "rgba(100, 200, 150, 0.5)"⟩
  else
    ⟨.expired, "Expired", "#f99", "rgba(200, 100, 100, 0.3)",
      "rgba(200, 100, 100, 0.5)"⟩

/-! ## NOTAM coordinates (`utils/notamCoordinates.ts`)

The four search patterns run over the upper-cased message, so the
case-insensitivity flags of the source regexes are inert; each regex is
compiled to a scanner whose backtracking behaviour is noted where it
matters (the optional groups of the PSN pattern). -/

structure NotamCoordinates where
  latitude : ℚ
  longitude : ℚ
  radius : Option ℚ
deriving DecidableEq, Repr

/-- The extraction-and-validation stage of `parseDMSToDecimal` (its
hemisphere/length/`parseInt`/range logic, everything before the final
arithmetic): the degree, minute and second integers plus whether the
hemisphere (`S`/`W`) negates the result. -/
def parseDMSParts (dms : String) : Option (Int × Int × Int × Bool) :=
  let hemisphere := jsToUpper (jsSliceLast dms)
  let numbers := jsSliceDropLast dms
  let isLatitude := hemisphere = "N" ∨ hemisphere = "S"
  let isLongitude := hemisphere = "E" ∨ hemisphere = "W"
  if ¬isLatitude ∧ ¬isLongitude then none
  else
    let expectedLength := if isLatitude then 6 else 7
    if numbers.data.length ≠ expectedLength then none
    else
      match jsParseInt (jsSlice numbers 0 (if isLatitude then 2 else 3)),
        jsParseInt (jsSlice numbers (if isLatitude then 2 else 3)
          (if isLatitude then 4 else 5)),
        jsParseInt (jsSliceFrom numbers (if isLatitude then 4 else 5)) with
      | some degrees, some minutes, some seconds =>
        if 60 ≤ minutes ∨ 60 ≤ seconds then none
        else if isLatitude ∧ 90 < degrees then none
        else if isLongitude ∧ 180 < degrees then none
        else some (degrees, minutes, seconds,
          decide (hemisphere = "S" ∨ hemisphere = "W"))
      | _, _, _ => none

/-- `parseDMSToDecimal` — `DDMMSS[NS]` / `DDDMMSS[EW]` to decimal
degrees, `none` for any failed validation: the conversion
`degrees + minutes/60 + seconds/3600`, negated for `S`/`W`. -/
def parseDMSToDecimal (dms : String) : Option ℚ :=
  (parseDMSParts dms).map fun p =>
    let decimal : ℚ := (p.1 : ℚ) + (p.2.1 : ℚ) / 60 + (p.2.2.1 : ℚ) / 3600
    if p.2.2.2 then -decimal else decimal

/-- Match a literal character sequence, returning the rest. -/
def expectChars : List Char → List Char → Option (List Char)
  | [], l => some l
  | c :: cs, d :: l => if d = c then expectChars cs l else none
  | _ :: _, [] => none

/-- `\s+` (greedy; every use below is followed by a non-whitespace
literal or class, so the greedy consumption never backtracks). -/
def wsPlus : List Char → Option (List Char)
  | c :: rest => if jsWS c then some (rest.dropWhile jsWS) else none
  | [] => none

/-- `\s*` in positions where backtracking can never help (followed by a
non-whitespace requirement). -/
def wsStar (l : List Char) : List Char := l.dropWhile jsWS

/-- `(\d{6}[NS])`: exactly six digits and a hemisphere letter; returns
the 7-character capture and the rest. -/
def dms6NS : List Char → Option (List Char × List Char)
  | d1 :: d2 :: d3 :: d4 :: d5 :: d6 :: h :: rest =>
    if isDig d1 && isDig d2 && isDig d3 && isDig d4 && isDig d5 && isDig d6 &&
        (h = 'N' || h = 'S') then
      some ([d1, d2, d3, d4, d5, d6, h], rest)
    else none
  | _ => none

/-- `(\d{7}[EW])`: exactly seven digits and a hemisphere letter. -/
def dms7EW : List Char → Option (List Char × List Char)
  | d1 :: d2 :: d3 :: d4 :: d5 :: d6 :: d7 :: h :: rest =>
    if isDig d1 && isDig d2 && isDig d3 && isDig d4 && isDig d5 && isDig d6 &&
        isDig d7 && (h = 'E' || h = 'W') then
      some ([d1, d2, d3, d4, d5, d6, d7, h], rest)
    else none
  | _ => none

/-- `(\d{6}[NS])\s+(\d{7}[EW])` at the head of the input, returning the
two captures. -/
def coordPairAt (l : List Char) : Option (List Char × List Char) :=
  match dms6NS l with
  | none => none
  | some (lat, r1) =>
    match wsPlus r1 with
    | none => none
    | some r2 =>
      match dms7EW r2 with
      | none => none
      | some (lon, _) => some (lat, lon)

/-- `(\d+(?:\.\d+)?)`: greedy digits with an optional fraction (the
fraction group participates only when a dot is directly followed by a
digit; otherwise the regex continues without it, leaving the dot). -/
def numToken (l : List Char) : Option (List Char × List Char) :=
  let ds := l.takeWhile isDig
  let r := l.dropWhile isDig
  if ds.isEmpty then none
  else
    match r with
    | '.' :: r2 =>
      let fs := r2.takeWhile isDig
      if fs.isEmpty then some (ds, r)
      else some (ds ++ '.' :: fs, r2.dropWhile isDig)
    | _ => some (ds, r)

/-- `parseFloat` of a `numToken` capture, as an exact rational. -/
def parseFloatQ (l : List Char) : ℚ :=
  let intPart := l.takeWhile isDig
  let rest := l.dropWhile isDig
  match rest with
  | '.' :: fs => (decFold intPart : ℚ) + (decFold fs : ℚ) / ((10 : ℚ) ^ fs.length)
  | _ => (decFold intPart : ℚ)

/-- One attempt of the radius pattern
`/WI\s+(\d+(?:\.\d+)?)\s*NM\s+RADIUS\s+OF\s+(\d{6}[NS])\s+(\d{7}[EW])/i`
at the head of the input: `(radius capture, latitude capture, longitude
capture)`. -/
def radiusAt (l : List Char) : Option (List Char × List Char × List Char) :=
  (expectChars ['W', 'I'] l).bind fun l1 =>
  (wsPlus l1).bind fun l2 =>
  (numToken l2).bind fun nl =>
  (expectChars ['N', 'M'] (wsStar nl.2)).bind fun l5 =>
  (wsPlus l5).bind fun l6 =>
  (expectChars ['R', 'A', 'D', 'I', 'U', 'S'] l6).bind fun l7 =>
  (wsPlus l7).bind fun l8 =>
  (expectChars ['O', 'F'] l8).bind fun l9 =>
  (wsPlus l9).bind fun l10 =>
  (coordPairAt l10).map fun p => (nl.1, p.1, p.2)

/-- The continuation after the optional colon group of the PSN pattern:
the optional `\s+SITE\s+CENTRE\s+` group (tried present first, as a
greedy optional group), then the coordinate pair. -/
def contPSN (l : List Char) : Option (List Char × List Char) :=
  match (wsPlus l).bind (fun l1 =>
      (expectChars ['S', 'I', 'T', 'E'] l1).bind fun l2 =>
      (wsPlus l2).bind fun l3 =>
      (expectChars ['C', 'E', 'N', 'T', 'R', 'E'] l3).bind fun l4 =>
      (wsPlus l4).bind fun l5 =>
      coordPairAt l5) with
  | some r => some r
  | none => coordPairAt l

/-- Backtracking of the trailing `\s*` inside `(?:\s*:\s*)?`: the greedy
run of `k` whitespace characters is given back one at a time until the
continuation succeeds. -/
def tryTrailWS : Nat → List Char → Option (List Char × List Char)
  | 0, l => contPSN l
  | k + 1, l =>
    match contPSN (l.drop (k + 1)) with
    | some r => some r
    | none => tryTrailWS k l

/-- One attempt of
`/(?:PSN|POSITION)(?:\s*:\s*)?(?:\s+SITE\s+CENTRE\s+)?(\d{6}[NS])\s+(\d{7}[EW])/i`
at the head of the input.  The two keyword alternatives differ at their
second character, so at most one matches; the optional colon group is
tried present (with its trailing `\s*` from greedy down to empty) and
then absent. -/
def psnAt (l : List Char) : Option (List Char × List Char) :=
  match
    (match expectChars ['P', 'S', 'N'] l with
     | some r => some r
     | none => expectChars ['P', 'O', 'S', 'I', 'T', 'I', 'O', 'N'] l) with
  | none => none
  | some kw =>
    match kw.dropWhile jsWS with
    | ':' :: r2 =>
      (match tryTrailWS (r2.takeWhile jsWS).length r2 with
       | some r => some r
       | none => contPSN kw)
    | _ => contPSN kw

/-- One attempt of `/BY\s*:\s*(\d{6}[NS])\s+(\d{7}[EW])/i` at the head of
the input. -/
def byAt (l : List Char) : Option (List Char × List Char) :=
  (expectChars ['B', 'Y'] l).bind fun l1 =>
  match wsStar l1 with
  | ':' :: r => coordPairAt (wsStar r)
  | _ => none

/-- Leftmost-match search: try the pattern at every position, leftmost
first (JavaScript `String.prototype.match` without `g`). -/
def scanFirst {α : Type} (f : List Char → Option α) : List Char → Option α
  | [] => f []
  | c :: rest =>
    match f (c :: rest) with
    | some r => some r
    | none => scanFirst f rest

/-- Pattern 1 with its DMS validation: `none` both when the pattern is
absent and when a captured token fails validation. -/
def radiusCandidate (normalized : List Char) : Option NotamCoordinates :=
  match scanFirst radiusAt normalized with
  | some (numS, latS, lonS) =>
    match parseDMSToDecimal ⟨latS⟩, parseDMSToDecimal ⟨lonS⟩ with
    | some lat, some lon => some ⟨lat, lon, some (parseFloatQ numS)⟩
    | _, _ => none
  | none => none

/-- Pattern 2 (PSN/POSITION) with its DMS validation. -/
def psnCandidate (normalized : List Char) : Option NotamCoordinates :=
  match scanFirst psnAt normalized with
  | some (latS, lonS) =>
    match parseDMSToDecimal ⟨latS⟩, parseDMSToDecimal ⟨lonS⟩ with
    | some lat, some lon => some ⟨lat, lon, none⟩
    | _, _ => none
  | none => none

/-- Pattern 3 (`BY:`) with its DMS validation. -/
def byCandidate (normalized : List Char) : Option NotamCoordinates :=
  match scanFirst byAt normalized with
  | some (latS, lonS) =>
    match parseDMSToDecimal ⟨latS⟩, parseDMSToDecimal ⟨lonS⟩ with
    | some lat, some lon => some ⟨lat, lon, none⟩
    | _, _ => none
  | none => none

/-- Pattern 4 (first bare coordinate pair) with its DMS validation. -/
def generalCandidate (normalized : List Char) : Option NotamCoordinates :=
  match scanFirst coordPairAt normalized with
  | some (latS, lonS) =>
    match parseDMSToDecimal ⟨latS⟩, parseDMSToDecimal ⟨lonS⟩ with
    | some lat, some lon => some ⟨lat, lon, none⟩
    | _, _ => none
  | none => none

/-- `parseNotamCoordinates` of the source: the four patterns in priority
order over the upper-cased message, falling through on a missing match
or an invalid candidate. -/
def parseNotamCoordinates (icaoMessage : String) : Option NotamCoordinates :=
  let normalized := (jsToUpper icaoMessage).data
  match radiusCandidate normalized with
  | some r => some r
  | none =>
    match psnCandidate normalized with
    | some r => some r
    | none =>
      match byCandidate normalized with
      | some r => some r
      | none => generalCandidate normalized

/-- Shape of a latitude capture: six digits and an `N`/`S` letter. -/
def latShape (cap : List Char) : Prop :=
  ∃ d1 d2 d3 d4 d5 d6 h7, cap = [d1, d2, d3, d4, d5, d6, h7] ∧
    (∀ c ∈ [d1, d2, d3, d4, d5, d6], isDig c = true) ∧ (h7 = 'N' ∨ h7 = 'S')

/-- Shape of a longitude capture: seven digits and an `E`/`W` letter. -/
def lonShape (cap : List Char) : Prop :=
  ∃ d1 d2 d3 d4 d5 d6 d7 h8, cap = [d1, d2, d3, d4, d5, d6, d7, h8] ∧
    (∀ c ∈ [d1, d2, d3, d4, d5, d6, d7], isDig c = true) ∧ (h8 = 'E' ∨ h8 = 'W')

theorem doAirspacesOverlap_comm (a b : ProcessedAirspace) :
    doAirspacesOverlap a b = doAirspacesOverlap b a := by
  simp [doAirspacesOverlap, Bool.or_comm]

theorem doAirspacesOverlap_self (a : ProcessedAirspace)
    (h : a.lowerFt < a.upperFt) : doAirspacesOverlap a a = true := by
  simp [doAirspacesOverlap, h, not_le]

theorem findLane_le (x : ProcessedAirspace) :
    ∀ lanes, findLane x lanes ≤ lanes.length := by
  intro lanes
  induction lanes with
  | nil => simp [findLane]
  | cons lane rest ih =>
    simp only [findLane, List.length_cons]
    split
    · omega
    · omega

theorem mem_getLane_lt (lanes : List (List ProcessedAirspace)) (l : Nat)
    (y : ProcessedAirspace) (h : y ∈ getLane lanes l) : l < lanes.length := by
  by_contra hlt
  push_neg at hlt
  have : getLane lanes l = [] := by
    unfold getLane
    exact List.getD_eq_default _ _ (by omega)
  rw [this] at h
  exact List.not_mem_nil y h

theorem findLane_found (x : ProcessedAirspace) :
    ∀ lanes, findLane x lanes < lanes.length →
      ∀ y ∈ getLane lanes (findLane x lanes), doAirspacesOverlap x y = false := by
  intro lanes
  induction lanes with
  | nil => simp [findLane]
  | cons lane rest ih =>
    intro hlt y hy
    by_cases hov : lane.any (fun other => doAirspacesOverlap x other) = true
    · simp only [findLane, hov, if_pos] at hlt hy
      exact ih (by simpa using hlt) y (by simpa [getLane] using hy)
    · simp only [findLane, hov, if_neg] at hy
      simp only [Bool.not_eq_true] at hov
      have := List.any_eq_false.mp hov
      simp only [if_neg, getLane, List.getD] at hy
      exact Bool.not_eq_true _ ▸ (this y (by simpa [getLane] using hy))

theorem findLane_skipped (x : ProcessedAirspace) :
    ∀ lanes l, l < findLane x lanes →
      ∃ y ∈ getLane lanes l, doAirspacesOverlap x y = true := by
  intro lanes
  induction lanes with
  | nil => simp [findLane]
  | cons lane rest ih =>
    intro l hl
    by_cases hov : lane.any (fun other => doAirspacesOverlap x other) = true
    · simp only [findLane, hov, if_pos] at hl
      cases l with
      | zero =>
        obtain ⟨y, hy, hyo⟩ := List.any_eq_true.mp hov
        exact ⟨y, by simpa [getLane] using hy, hyo⟩
      | succ l' =>
        obtain ⟨y, hy, hyo⟩ := ih l' (by omega)
        exact ⟨y, by simpa [getLane] using hy, hyo⟩
    · simp [findLane, hov] at hl

theorem getLane_pushAt_self (x : ProcessedAirspace) :
    ∀ lanes l, l ≤ lanes.length → x ∈ getLane (pushAt lanes l x) l := by
  intro lanes
  induction lanes with
  | nil =>
    intro l hl
    simp only [List.length_nil, Nat.le_zero] at hl
    subst hl
    simp [pushAt, getLane]
  | cons lane rest ih =>
    intro l hl
    cases l with
    | zero => simp [pushAt, getLane]
    | succ l' =>
      simp only [pushAt, getLane, List.getD_cons_succ]
      exact ih l' (by simpa using hl)

theorem getLane_pushAt_mono (x : ProcessedAirspace) (y : ProcessedAirspace) :
    ∀ lanes l' l, y ∈ getLane lanes l → y ∈ getLane (pushAt lanes l' x) l := by
  intro lanes
  induction lanes with
  | nil => intro l' l hy; simp [getLane] at hy
  | cons lane rest ih =>
    intro l' l hy
    cases l' with
    | zero =>
      cases l with
      | zero => simp only [getLane, List.getD_cons_zero, pushAt] at hy ⊢; exact List.mem_append_left _ hy
      | succ k => simpa [pushAt, getLane] using hy
    | succ k' =>
      cases l with
      | zero => simpa [pushAt, getLane] using hy
      | succ k =>
        simp only [pushAt, getLane, List.getD_cons_succ] at hy ⊢
        exact ih k' k hy

theorem mem_getLane_pushAt (x : ProcessedAirspace) (y : ProcessedAirspace) :
    ∀ lanes l' l, l' ≤ lanes.length → y ∈ getLane (pushAt lanes l' x) l →
      y ∈ getLane lanes l ∨ (l = l' ∧ y = x) := by
  intro lanes
  induction lanes with
  | nil =>
    intro l' l hl' hy
    simp only [List.length_nil, Nat.le_zero] at hl'
    subst hl'
    cases l with
    | zero =>
      simp only [pushAt, getLane, List.getD_cons_zero, List.mem_singleton] at hy
      exact Or.inr ⟨rfl, hy⟩
    | succ k => simp [pushAt, getLane] at hy
  | cons lane rest ih =>
    intro l' l hl' hy
    cases l' with
    | zero =>
      cases l with
      | zero =>
        simp only [pushAt, getLane, List.getD_cons_zero] at hy
        rcases List.mem_append.mp hy with h | h
        · exact Or.inl h
        · exact Or.inr ⟨rfl, List.mem_singleton.mp h⟩
      | succ k =>
        simp only [pushAt, getLane, List.getD_cons_succ] at hy
        exact Or.inl (by simpa [getLane] using hy)
    | succ k' =>
      cases l with
      | zero =>
        simp only [pushAt, getLane, List.getD_cons_zero] at hy
        exact Or.inl (by simpa [getLane] using hy)
      | succ k =>
        simp only [pushAt, getLane, List.getD_cons_succ] at hy
        rcases ih k' k (by simpa using hl') hy with h | ⟨h1, h2⟩
        · exact Or.inl (by simpa [getLane] using h)
        · exact Or.inr ⟨by omega, h2⟩

theorem aux_no_overlap_same_lane (x : ProcessedAirspace) :
    ∀ rest lanes l, x ∈ getLane lanes l →
      ∀ b ∈ (assignLanesAux rest lanes).1, b.lane = l →
        doAirspacesOverlap b.toProcessedAirspace x = false := by
  intro rest
  induction rest with
  | nil => intro lanes l _ b hb; simp [assignLanesAux] at hb
  | cons y rest' ih =>
    intro lanes l hx b hb hbl
    simp only [assignLanesAux, List.mem_cons] at hb
    rcases hb with rfl | hb
    · have hll : l < lanes.length := mem_getLane_lt lanes l x hx
      have : findLane y lanes = l := hbl
      exact findLane_found y lanes (this ▸ hll) x (this ▸ hx)
    · exact ih (pushAt lanes (findLane y lanes) y) l
        (getLane_pushAt_mono y x lanes (findLane y lanes) l hx) b hb hbl

theorem aux_pairwise :
    ∀ rest lanes, List.Pairwise
      (fun a b : AirspaceWithLane => a.lane = b.lane →
        doAirspacesOverlap a.toProcessedAirspace b.toProcessedAirspace = false)
      (assignLanesAux rest lanes).1 := by
  intro rest
  induction rest with
  | nil => intro lanes; simp [assignLanesAux]
  | cons y rest' ih =>
    intro lanes
    simp only [assignLanesAux]
    refine List.Pairwise.cons ?_ (ih (pushAt lanes (findLane y lanes) y))
    intro b hb heq
    have hx : y ∈ getLane (pushAt lanes (findLane y lanes) y) (findLane y lanes) :=
      getLane_pushAt_self y lanes (findLane y lanes) (findLane_le y lanes)
    have := aux_no_overlap_same_lane y rest'
      (pushAt lanes (findLane y lanes) y) (findLane y lanes) hx b hb heq.symm
    rw [doAirspacesOverlap_comm] at this
    exact this

theorem aux_lower_lanes :
    ∀ rest lanes, ∀ a ∈ (assignLanesAux rest lanes).1, ∀ l, l < a.lane →
      (∃ y ∈ getLane lanes l,
          doAirspacesOverlap a.toProcessedAirspace y = true) ∨
      (∃ b ∈ (assignLanesAux rest lanes).1, b.lane = l ∧
          doAirspacesOverlap a.toProcessedAirspace b.toProcessedAirspace = true) := by
  intro rest
  induction rest with
  | nil => intro lanes a ha; simp [assignLanesAux] at ha
  | cons y rest' ih =>
    intro lanes a ha l hl
    simp only [assignLanesAux, List.mem_cons] at ha ⊢
    rcases ha with rfl | ha
    · obtain ⟨z, hz, hzo⟩ := findLane_skipped y lanes l hl
      exact Or.inl ⟨z, hz, hzo⟩
    · rcases ih (pushAt lanes (findLane y lanes) y) a ha l hl with ⟨z, hz, hzo⟩ | ⟨b, hb, hbl, hbo⟩
      · rcases mem_getLane_pushAt y z lanes (findLane y lanes) l (findLane_le y lanes) hz with h | ⟨h1, h2⟩
        · exact Or.inl ⟨z, h, hzo⟩
        · exact Or.inr ⟨⟨y, findLane y lanes⟩, Or.inl rfl, h1.symm, h2 ▸ hzo⟩
      · exact Or.inr ⟨b, Or.inr hb, hbl, hbo⟩

theorem foldl_max_le_init (b : Nat) :
    ∀ (ls : List Nat) (l : Nat), b ≤ l → b ≤ ls.foldl max l := by
  intro ls
  induction ls with
  | nil => intro l h; simpa using h
  | cons a t ih =>
    intro l h
    simp only [List.foldl_cons]
    exact ih (max l a) (le_trans h (le_max_left l a))

theorem le_foldl_max (x : Nat) :
    ∀ (ls : List Nat) (l : Nat), x = l ∨ x ∈ ls → x ≤ ls.foldl max l := by
  intro ls
  induction ls with
  | nil =>
    intro l h
    have hx : x = l := h.resolve_right (List.not_mem_nil x)
    simp [hx]
  | cons a t ih =>
    intro l h
    simp only [List.foldl_cons]
    rcases h with rfl | h
    · exact foldl_max_le_init x t (max x a) (le_max_left x a)
    · rcases List.mem_cons.mp h with rfl | h
      · exact foldl_max_le_init x t (max l x) (le_max_right l x)
      · exact ih (max l a) (Or.inr h)

theorem nodup_bounded_length (l : List Nat) (m : Nat) (hnd : l.Nodup)
    (hle : ∀ x ∈ l, x ≤ m) : l.length ≤ m + 1 := by
  have h1 : l.toFinset ⊆ Finset.range (m + 1) := by
    intro x hx
    simp only [List.mem_toFinset] at hx
    exact Finset.mem_range.mpr (by have := hle x hx; omega)
  have h2 : l.toFinset.card = l.length := List.toFinset_card_of_nodup hnd
  have := Finset.card_le_card h1
  rw [h2, Finset.card_range] at this
  exact this

/-- C1 (amended): in the rendered output of `assignLanes`, each band's
width is `100%` divided by one plus the *maximum* lane index among the
bands overlapping it (not the number of distinct such lanes, as the claim
states); every band in lane `L` has an overlapping band in every lane
below `L` (so the claimed "lane 2 with no overlapping sibling in lanes
0–1 renders at full width" situation cannot arise), the code's width
never exceeds the claim's `100% / numDistinctActiveLanes`, and each band
fits inside the chart. -/
theorem c1_width_amended : ∀ (input : List ProcessedAirspace),
    ∀ a ∈ (assignLanes input).airspacesWithLanes,
      (∀ l, l < a.lane → ∃ b ∈ (assignLanes input).airspacesWithLanes,
          b.lane = l ∧
          doAirspacesOverlap a.toProcessedAirspace b.toProcessedAirspace = true) ∧
      (a.lowerFt < a.upperFt →
        ∃ m : ℕ, a.lane ≤ m ∧
          laneWidthPercent (assignLanes input).airspacesWithLanes a =
            some (100 / (m + 1 : ℚ)) ∧
          ((a.lane : ℚ) + 1) * (100 / (m + 1 : ℚ)) ≤ 100 ∧
          ∀ w : ℚ,
            specWidthPercent (assignLanes input).airspacesWithLanes a = some w →
              100 / (m + 1 : ℚ) ≤ w) := by
  intro input a ha
  constructor
  · intro l hl
    have h := aux_lower_lanes input [] a ha l hl
    rcases h with ⟨y, hy, _⟩ | h
    · simp [getLane] at hy
    · exact h
  · intro hlt
    have hself :
        doAirspacesOverlap a.toProcessedAirspace a.toProcessedAirspace = true :=
      doAirspacesOverlap_self _ hlt
    have hmem : a ∈ (assignLanes input).airspacesWithLanes.filter
        (fun other =>
          doAirspacesOverlap a.toProcessedAirspace other.toProcessedAirspace) :=
      List.mem_filter.mpr ⟨ha, hself⟩
    have hlane : a.lane ∈ activeLanes (assignLanes input).airspacesWithLanes a :=
      List.mem_map.mpr ⟨a, hmem, rfl⟩
    cases hAL : activeLanes (assignLanes input).airspacesWithLanes a with
    | nil => rw [hAL] at hlane; cases hlane
    | cons l0 ls =>
      rw [hAL] at hlane
      have hmax : a.lane ≤ ls.foldl max l0 :=
        le_foldl_max a.lane ls l0 (by simpa using List.mem_cons.mp hlane)
      refine ⟨ls.foldl max l0, hmax, ?_, ?_, ?_⟩
      · simp only [laneWidthPercent, numActiveLanes, hAL, Option.map_some]
        norm_num
      · have h1 : ((a.lane : ℚ) + 1) ≤ (((ls.foldl max l0 : ℕ) : ℚ) + 1) := by
          have hc : (a.lane : ℚ) ≤ ((ls.foldl max l0 : ℕ) : ℚ) := Nat.cast_le.mpr hmax
          linarith
        have h2 : (0 : ℚ) < ((ls.foldl max l0 : ℕ) : ℚ) + 1 := by positivity
        calc ((a.lane : ℚ) + 1) * (100 / (((ls.foldl max l0 : ℕ) : ℚ) + 1))
            ≤ (((ls.foldl max l0 : ℕ) : ℚ) + 1) *
                (100 / (((ls.foldl max l0 : ℕ) : ℚ) + 1)) := by
              apply mul_le_mul_of_nonneg_right h1
              positivity
          _ = 100 := by field_simp
      · intro w hw
        simp only [specWidthPercent, hAL] at hw
        have hdmem : a.lane ∈ (l0 :: ls).dedup := List.mem_dedup.mpr hlane
        have hdnil : (l0 :: ls).dedup.length ≠ 0 := by
          intro h0
          rw [List.length_eq_zero] at h0
          rw [h0] at hdmem
          exact List.not_mem_nil _ hdmem
        have hdle : (l0 :: ls).dedup.length ≤ ls.foldl max l0 + 1 := by
          apply nodup_bounded_length _ _ (List.nodup_dedup _)
          intro x hx
          exact le_foldl_max x ls l0
            (by simpa using List.mem_cons.mp (List.mem_dedup.mp hx))
        rcases hn : (l0 :: ls).dedup.length with _ | n
        · exact absurd hn hdnil
        · rw [hn] at hw
          simp only at hw
          have hw' : w = 100 / ((n : ℚ) + 1) := by
            rw [← Option.some_inj, ← hw]
            norm_num
          rw [hw']
          have hnn : (0 : ℚ) < (n : ℚ) + 1 := by positivity
          apply div_le_div_of_nonneg_left (by norm_num) hnn
          have : n + 1 ≤ ls.foldl max l0 + 1 := hn ▸ hdle
          exact_mod_cast this

/-- C1 (counterexample): on the four bands `[0,20] [5,15] [12,40] [25,60]`
the greedy assignment is lanes `0,1,2,0`; the band `[25,60]` (lane 0)
overlaps only the lane-2 band `[12,40]` and itself, so its distinct
active-lane set is `{2, 0}` — the claimed width is `100/2 = 50`, but the
code renders `100 / (maxActiveLane + 1) = 100/3`. -/
theorem c1_width_counterexample :
    (⟨⟨3, 25, 60⟩, 0⟩ : AirspaceWithLane) ∈
      (assignLanes [⟨0, 0, 20⟩, ⟨1, 5, 15⟩, ⟨2, 12, 40⟩,
        ⟨3, 25, 60⟩]).airspacesWithLanes ∧
    laneWidthPercent
      (assignLanes [⟨0, 0, 20⟩, ⟨1, 5, 15⟩, ⟨2, 12, 40⟩,
        ⟨3, 25, 60⟩]).airspacesWithLanes ⟨⟨3, 25, 60⟩, 0⟩ = some (100 / 3) ∧
    specWidthPercent
      (assignLanes [⟨0, 0, 20⟩, ⟨1, 5, 15⟩, ⟨2, 12, 40⟩,
        ⟨3, 25, 60⟩]).airspacesWithLanes ⟨⟨3, 25, 60⟩, 0⟩ = some 50 ∧
    ((100 : ℚ) / 3 ≠ 50) ∧
    (activeLanes
      (assignLanes [⟨0, 0, 20⟩, ⟨1, 5, 15⟩, ⟨2, 12, 40⟩,
        ⟨3, 25, 60⟩]).airspacesWithLanes ⟨⟨3, 25, 60⟩, 0⟩).dedup = [2, 0] := by
  have hAL : activeLanes
      (assignLanes [⟨0, 0, 20⟩, ⟨1, 5, 15⟩, ⟨2, 12, 40⟩,
        ⟨3, 25, 60⟩]).airspacesWithLanes ⟨⟨3, 25, 60⟩, 0⟩ = [2, 0] := by decide
  have hd : (([2, 0] : List ℕ).dedup).length = 2 := by decide
  refine ⟨by decide, ?_, ?_, by norm_num, by rw [hAL]; decide⟩
  · simp only [laneWidthPercent, numActiveLanes, hAL]
    norm_num
  · simp only [specWidthPercent, hAL, hd]
    norm_num

/-- Witness for `c1_width_amended` at the same concrete input. -/
theorem c1_width_amended_witness :
    ∃ m : ℕ, (⟨⟨3, 25, 60⟩, 0⟩ : AirspaceWithLane).lane ≤ m ∧
      laneWidthPercent
        (assignLanes [⟨0, 0, 20⟩, ⟨1, 5, 15⟩, ⟨2, 12, 40⟩,
          ⟨3, 25, 60⟩]).airspacesWithLanes ⟨⟨3, 25, 60⟩, 0⟩ =
        some (100 / (m + 1 : ℚ)) ∧
      (((⟨⟨3, 25, 60⟩, 0⟩ : AirspaceWithLane).lane : ℚ) + 1) *
          (100 / (m + 1 : ℚ)) ≤ 100 ∧
      ∀ w : ℚ,
        specWidthPercent
          (assignLanes [⟨0, 0, 20⟩, ⟨1, 5, 15⟩, ⟨2, 12, 40⟩,
            ⟨3, 25, 60⟩]).airspacesWithLanes ⟨⟨3, 25, 60⟩, 0⟩ = some w →
          100 / (m + 1 : ℚ) ≤ w :=
  (c1_width_amended [⟨0, 0, 20⟩, ⟨1, 5, 15⟩, ⟨2, 12, 40⟩, ⟨3, 25, 60⟩]
    ⟨⟨3, 25, 60⟩, 0⟩ (by decide)).2 (by decide)

/-- C2: no two bands assigned the same lane by `assignLanes` overlap;
`doAirspacesOverlap` holds exactly when each band starts strictly below
the other's top (so touching bounds do not overlap, and `[0,5000]`,
`[5000,10000]` share lane 0); the worked example `A=[0,5000]`,
`B=[3000,8000]`, `C=[9000,12000]` gets lanes `0,1,0` with 2 lanes
total. -/
theorem c2_same_lane_no_overlap :
    (∀ input : List ProcessedAirspace,
      List.Pairwise
        (fun a b : AirspaceWithLane => a.lane = b.lane →
          doAirspacesOverlap a.toProcessedAirspace b.toProcessedAirspace = false)
        (assignLanes input).airspacesWithLanes) ∧
    (∀ a b : ProcessedAirspace,
      doAirspacesOverlap a b = true ↔
        b.lowerFt < a.upperFt ∧ a.lowerFt < b.upperFt) ∧
    ((assignLanes [⟨0, 0, 5000⟩, ⟨1, 5000, 10000⟩]).airspacesWithLanes.map
        (fun a => a.lane) = [0, 0]) ∧
    ((assignLanes
        [⟨0, 0, 5000⟩, ⟨1, 3000, 8000⟩, ⟨2, 9000, 12000⟩]).airspacesWithLanes.map
        (fun a => a.lane) = [0, 1, 0]) ∧
    (assignLanes [⟨0, 0, 5000⟩, ⟨1, 3000, 8000⟩, ⟨2, 9000, 12000⟩]).totalLanes
      = 2 := by
  refine ⟨fun input => aux_pairwise input [], ?_, by decide, by decide, by decide⟩
  intro a b
  simp [doAirspacesOverlap, not_le, and_comm]

/-- C10 (counterexample): the zero-height band `[5,5]` *does* overlap the
band `[0,10]` under `doAirspacesOverlap` (both directions), and
`assignLanes` on `[[0,10], [5,5]]` puts the zero-height band in lane 1,
not lane 0. -/
theorem c10_zero_height_counterexample :
    doAirspacesOverlap ⟨1, 5, 5⟩ ⟨0, 0, 10⟩ = true ∧
    doAirspacesOverlap ⟨0, 0, 10⟩ ⟨1, 5, 5⟩ = true ∧
    (assignLanes [⟨0, 0, 10⟩, ⟨1, 5, 5⟩]).airspacesWithLanes.map
      (fun a => a.lane) = [0, 1] := by
  decide

/-- C10 (amended): a zero-height band at altitude `h` never overlaps
itself, and it overlaps another band exactly when that band's interior
strictly contains `h`; hence `assignLanes` may well assign it a nonzero
lane (see the counterexample). -/
theorem c10_zero_height_amended : ∀ z b : ProcessedAirspace,
    z.lowerFt = z.upperFt →
      (doAirspacesOverlap z b =
        decide (b.lowerFt < z.lowerFt ∧ z.lowerFt < b.upperFt)) ∧
      (doAirspacesOverlap b z =
        decide (b.lowerFt < z.lowerFt ∧ z.lowerFt < b.upperFt)) ∧
      doAirspacesOverlap z z = false := by
  intro z b h
  refine ⟨?_, ?_, ?_⟩
  · by_cases h1 : b.lowerFt < z.lowerFt
    · by_cases h2 : z.lowerFt < b.upperFt
      · simp [doAirspacesOverlap, ← h, h1, h2, not_le.mpr h1, not_le.mpr h2]
      · simp [doAirspacesOverlap, ← h, h1, h2, not_lt.mp h2]
    · by_cases h2 : z.lowerFt < b.upperFt
      · simp [doAirspacesOverlap, ← h, h1, h2, not_lt.mp h1]
      · simp [doAirspacesOverlap, ← h, h1, h2, not_lt.mp h1]
  · by_cases h1 : b.lowerFt < z.lowerFt
    · by_cases h2 : z.lowerFt < b.upperFt
      · simp [doAirspacesOverlap, ← h, h1, h2, not_le.mpr h1, not_le.mpr h2]
      · simp [doAirspacesOverlap, ← h, h1, h2, not_lt.mp h2]
    · by_cases h2 : z.lowerFt < b.upperFt
      · simp [doAirspacesOverlap, ← h, h1, h2, not_lt.mp h1]
      · simp [doAirspacesOverlap, ← h, h1, h2, not_lt.mp h1]
  · simp [doAirspacesOverlap, ← h]

/-- Witness for `c10_zero_height_amended` at `z = [5,5]`, `b = [0,10]`. -/
theorem c10_zero_height_witness :
    doAirspacesOverlap ⟨0, 5, 5⟩ ⟨1, 0, 10⟩ =
      decide ((⟨1, 0, 10⟩ : ProcessedAirspace).lowerFt <
          (⟨0, 5, 5⟩ : ProcessedAirspace).lowerFt ∧
        (⟨0, 5, 5⟩ : ProcessedAirspace).lowerFt <
          (⟨1, 0, 10⟩ : ProcessedAirspace).upperFt) :=
  (c10_zero_height_amended ⟨0, 5, 5⟩ ⟨1, 0, 10⟩ rfl).1

theorem jsRound_sub_le (x : ℝ) : |(jsRound x : ℝ) - x| ≤ 1 := by
  have h1 : ((⌊x + 1 / 2⌋ : ℤ) : ℝ) ≤ x + 1 / 2 := Int.floor_le _
  have h2 : x + 1 / 2 < (⌊x + 1 / 2⌋ : ℤ) + 1 := Int.lt_floor_add_one _
  rw [abs_le]
  constructor
  · simp only [jsRound]
    linarith
  · simp only [jsRound]
    linarith

/-- C8: `calculateWindComponents` returns
`headwind = round(speed * cos θ)` and `crosswind = round |speed * sin θ|`
for `θ = (windDir − runwayHeading)·π/180`, each within `±1` of the exact
projection; the crosswind is never negative, and the spec's worked
examples hold, including a pure tailwind (negative headwind). -/
theorem c8_wind_components : ∀ windDir windSpeed runwayHeading : ℝ,
    (|((calculateWindComponents windDir windSpeed runwayHeading).1 : ℝ) -
        windSpeed * Real.cos ((windDir - runwayHeading) * Real.pi / 180)| ≤ 1) ∧
    (abs (((calculateWindComponents windDir windSpeed runwayHeading).2 : ℝ) -
        |windSpeed * Real.sin ((windDir - runwayHeading) * Real.pi / 180)|) ≤ 1) ∧
    (0 ≤ (calculateWindComponents windDir windSpeed runwayHeading).2) ∧
    calculateWindComponents 360 20 360 = (20, 0) ∧
    calculateWindComponents 90 20 360 = (0, 20) ∧
    calculateWindComponents 180 20 360 = (-20, 0) := by
  have hdiff : ∀ a b : ℝ, a * Real.pi / 180 - b * Real.pi / 180 =
      (a - b) * Real.pi / 180 := by intro a b; ring
  refine fun windDir windSpeed runwayHeading => ⟨?_, ?_, ?_, ?_, ?_, ?_⟩
  · simp only [calculateWindComponents, hdiff]
    exact jsRound_sub_le _
  · simp only [calculateWindComponents, hdiff]
    exact jsRound_sub_le _
  · simp only [calculateWindComponents, jsRound]
    exact Int.le_floor.mpr (by push_cast; positivity)
  · simp only [calculateWindComponents, jsRound]
    have h0 : (360 : ℝ) * Real.pi / 180 - 360 * Real.pi / 180 = 0 := by ring
    rw [h0, Real.cos_zero, Real.sin_zero]
    norm_num
  · simp only [calculateWindComponents, jsRound]
    have h0 : (90 : ℝ) * Real.pi / 180 - 360 * Real.pi / 180 =
        Real.pi / 2 - 2 * Real.pi := by ring
    rw [h0, Real.cos_sub_two_pi, Real.sin_sub_two_pi, Real.cos_pi_div_two,
      Real.sin_pi_div_two]
    norm_num
  · simp only [calculateWindComponents, jsRound]
    have h0 : (180 : ℝ) * Real.pi / 180 - 360 * Real.pi / 180 =
        Real.pi - 2 * Real.pi := by ring
    rw [h0, Real.cos_sub_two_pi, Real.sin_sub_two_pi, Real.cos_pi, Real.sin_pi]
    norm_num

theorem cloudLayerOf_not_clear (cloud : List Char) (layer : CloudLayer)
    (h : cloudLayerOf cloud = some layer) :
    layer.coverage ≠ "NSC" ∧ layer.coverage ≠ "SKC" ∧
      layer.coverage ≠ "CLR" ∧ layer.coverage ≠ "CAVOK" := by
  simp only [cloudLayerOf] at h
  rcases hft : firstThreeDigits cloud with _ | hd <;> rw [hft] at h
  · simp at h
  · split_ifs at h with hc
    injection h with h'
    subst h'
    exact ⟨hc.1, hc.2.1, hc.2.2.1, hc.2.2.2⟩

theorem splitMatchAt_append (l r : List Char) (h : splitMatchAt l = true) :
    splitMatchAt (l ++ r) = true := by
  cases l with
  | nil => simp [splitMatchAt] at h
  | cons c t =>
    rw [List.cons_append]
    simp only [splitMatchAt, Bool.and_eq_true, List.any_eq_true] at h ⊢
    obtain ⟨hws, kw, hkwmem, hpre, hws2⟩ := h
    refine ⟨hws, kw, hkwmem, ?_, ?_⟩
    · exact List.isPrefixOf_iff_prefix.mpr
        ((List.isPrefixOf_iff_prefix.mp hpre).trans (List.prefix_append t r))
    · have hklen : kw.length ≤ t.length := by
        by_contra hgt
        push_neg at hgt
        have hdr : t.drop kw.length = [] := List.drop_eq_nil_of_le (by omega)
        rw [hdr] at hws2
        exact absurd hws2 (by simp [hasWSHead])
      rw [List.drop_append_of_le_length hklen]
      cases hdd : t.drop kw.length with
      | nil => rw [hdd] at hws2; exact absurd hws2 (by simp [hasWSHead])
      | cons d ds =>
        rw [hdd] at hws2
        rw [List.cons_append]
        simpa [hasWSHead] using hws2

theorem splitBeforeCore_of_no_match :
    ∀ l : List Char, (∀ j, j < l.length → splitMatchAt (l.drop j) = false) →
      splitBeforeCore l = l := by
  intro l
  induction l with
  | nil => intro _; rfl
  | cons c t ih =>
    intro H
    have h0 : splitMatchAt (c :: t) = false := by
      have := H 0 (by simp)
      rwa [List.drop_zero] at this
    show (if splitMatchAt (c :: t) = true then [] else c :: splitBeforeCore t)
      = c :: t
    rw [h0]
    simp only [Bool.false_eq_true, if_false]
    exact congrArg (List.cons c) (ih (fun j hj => by
      have := H (j + 1) (by simpa using Nat.succ_lt_succ hj)
      rwa [List.drop_succ_cons] at this))

theorem splitBeforeCore_finds :
    ∀ pre rest : List Char, splitMatchAt rest = true →
      (∀ j, j < pre.length → splitMatchAt ((pre ++ rest).drop j) = false) →
      splitBeforeCore (pre ++ rest) = pre := by
  intro pre
  induction pre with
  | nil =>
    intro rest hm _
    cases rest with
    | nil => simp [splitMatchAt] at hm
    | cons c t => simp [splitBeforeCore, hm]
  | cons c t ih =>
    intro rest hm H
    have h0 : splitMatchAt (c :: (t ++ rest)) = false := by
      have := H 0 (by simp)
      rwa [List.drop_zero, List.cons_append] at this
    rw [List.cons_append]
    show (if splitMatchAt (c :: (t ++ rest)) = true then []
      else c :: splitBeforeCore (t ++ rest)) = c :: t
    rw [h0]
    simp only [Bool.false_eq_true, if_false]
    exact congrArg (List.cons c) (ih rest hm (fun j hj => by
      have := H (j + 1) (by simpa using Nat.succ_lt_succ hj)
      rwa [List.cons_append, List.drop_succ_cons] at this))

theorem parseCloudLayers_strip (pre post : String) (kw : List Char)
    (hkw : kw ∈ rmkKeywords)
    (H : ∀ j, j < pre.data.length →
      splitMatchAt ((pre.data ++ (' ' :: (kw ++ ' ' :: post.data))).drop j)
        = false) :
    parseCloudLayers ⟨pre.data ++ (' ' :: (kw ++ ' ' :: post.data))⟩ =
      parseCloudLayers pre := by
  have hm : splitMatchAt (' ' :: (kw ++ ' ' :: post.data)) = true := by
    simp only [splitMatchAt, Bool.and_eq_true, List.any_eq_true]
    refine ⟨by decide, kw, hkw, ?_, ?_⟩
    · exact List.isPrefixOf_iff_prefix.mpr (List.prefix_append kw (' ' :: post.data))
    · rw [List.drop_left]
      rfl
  have hsplit : splitBeforeCore (pre.data ++ (' ' :: (kw ++ ' ' :: post.data)))
      = pre.data := splitBeforeCore_finds _ _ hm H
  have Hpre : ∀ j, j < pre.data.length → splitMatchAt (pre.data.drop j) = false := by
    intro j hj
    by_contra hx
    rw [Bool.not_eq_false] at hx
    have := splitMatchAt_append _ (' ' :: (kw ++ ' ' :: post.data)) hx
    rw [← List.drop_append_of_le_length (by omega)] at this
    rw [H j hj] at this
    exact absurd this (by simp)
  have hsplit2 : splitBeforeCore pre.data = pre.data :=
    splitBeforeCore_of_no_match pre.data Hpre
  show List.insertionSort _ ((cloudMatches (splitBeforeRmk
      ⟨pre.data ++ (' ' :: (kw ++ ' ' :: post.data))⟩).data).filterMap cloudLayerOf) = _
  rw [show splitBeforeRmk ⟨pre.data ++ (' ' :: (kw ++ ' ' :: post.data))⟩
      = ⟨pre.data⟩ from congrArg String.mk hsplit]
  show _ = List.insertionSort _ ((cloudMatches
      (splitBeforeRmk pre).data).filterMap cloudLayerOf)
  rw [show splitBeforeRmk pre = ⟨pre.data⟩ from congrArg String.mk hsplit2]

/-- C7 (amended): `parseCloudLayers` returns layers sorted ascending by
base altitude; no returned layer carries a clear-variant code
(`NSC`/`SKC`/`CLR`/`CAVOK`), and `"CAVOK"` yields the empty list; the
worked example `"SCT025 BKN040 OVC100"` yields exactly the three layers
at 2500/4000/10000 ft with coverage percents 50/75/100; and content after
an `RMK`/`TEMPO`/`BECMG` token is stripped before matching *provided the
token is surrounded by whitespace on both sides* (the split regex is
`/\s(RMK|TEMPO|BECMG)\s/`, so a keyword at the very start or end of the
string does not trigger stripping — see the counterexample). -/
theorem c7_cloud_layers_amended :
    (∀ metar : String,
      List.Pairwise (fun a b : CloudLayer => a.altitude ≤ b.altitude)
        (parseCloudLayers metar)) ∧
    (∀ metar : String, ∀ layer ∈ parseCloudLayers metar,
      layer.coverage ≠ "NSC" ∧ layer.coverage ≠ "SKC" ∧
        layer.coverage ≠ "CLR" ∧ layer.coverage ≠ "CAVOK") ∧
    parseCloudLayers "CAVOK" = [] ∧
    parseCloudLayers "SCT025 BKN040 OVC100" =
      [⟨"SCT", 2500, 50, "Scattered"⟩, ⟨"BKN", 4000, 75, "Broken"⟩,
        ⟨"OVC", 10000, 100, "Overcast"⟩] ∧
    (∀ pre post : String, ∀ kw ∈ rmkKeywords,
      (∀ j, j < pre.data.length →
        splitMatchAt ((pre.data ++ (' ' :: (kw ++ ' ' :: post.data))).drop j)
          = false) →
      parseCloudLayers ⟨pre.data ++ (' ' :: (kw ++ ' ' :: post.data))⟩ =
        parseCloudLayers pre) := by
  refine ⟨?_, ?_, by decide, by decide, ?_⟩
  · intro metar
    haveI : IsTotal CloudLayer (fun a b => a.altitude ≤ b.altitude) :=
      ⟨fun a b => le_total _ _⟩
    haveI : IsTrans CloudLayer (fun a b => a.altitude ≤ b.altitude) :=
      ⟨fun _ _ _ => le_trans⟩
    exact List.sorted_insertionSort _ _
  · intro metar layer hl
    have hl2 : layer ∈
        (cloudMatches (splitBeforeRmk metar).data).filterMap cloudLayerOf :=
      (List.mem_insertionSort _).mp hl
    obtain ⟨cloud, _, hc⟩ := List.mem_filterMap.mp hl2
    exact cloudLayerOf_not_clear cloud layer hc
  · exact fun pre post kw hkw H => parseCloudLayers_strip pre post kw hkw H

/-- C7 (counterexample): in `"RMK SCT025"` the `RMK` token sits at the
start of the string, so the split regex (which needs whitespace on both
sides of the keyword) does not strip the remark section, and the cloud
group after `RMK` is parsed into a layer — the claim's unconditional
"strips content after the first RMK token" would give no layers. -/
theorem c7_strip_counterexample :
    parseCloudLayers "RMK SCT025" = [⟨"SCT", 2500, 50, "Scattered"⟩] := by
  decide

/-- Witness for `c7_cloud_layers_amended` at a concrete stripping
instance. -/
theorem c7_cloud_layers_witness :
    parseCloudLayers ⟨("SCT025" : String).data ++
      (' ' :: (['R', 'M', 'K'] ++ ' ' :: ("BKN040" : String).data))⟩ =
      parseCloudLayers "SCT025" :=
  c7_cloud_layers_amended.2.2.2.2 "SCT025" "BKN040" ['R', 'M', 'K'] (by decide)
    (by decide)

theorem isDig_not_ws (c : Char) (h : isDig c = true) : jsWS c = false := by
  simp only [isDig, Bool.and_eq_true, decide_eq_true_eq] at h
  simp only [jsWS, Bool.or_eq_false_iff, decide_eq_false_iff_not]
  refine ⟨⟨⟨⟨⟨?_, ?_⟩, ?_⟩, ?_⟩, ?_⟩, ?_⟩ <;>
    exact fun he => absurd h (by subst he; decide)

theorem takeWhile_all (p : Char → Bool) :
    ∀ l : List Char, (∀ c ∈ l, p c = true) → l.takeWhile p = l := by
  intro l
  induction l with
  | nil => intro _; rfl
  | cons c t ih =>
    intro h
    rw [List.takeWhile_cons, h c (by simp)]
    simp [ih (fun d hd => h d (by simp [hd]))]

theorem hexPrefix_of_digits (l : List Char) (hd : ∀ c ∈ l, isDig c = true) :
    hexPrefix l = false := by
  cases l with
  | nil => rfl
  | cons a t =>
    cases t with
    | nil => rfl
    | cons b t2 =>
      have hb : isDig b = true := hd b (by simp)
      show (decide (a = '0') && (decide (b = 'x') || decide (b = 'X'))) = false
      have h1 : (decide (b = 'x')) = false := by
        simp only [decide_eq_false_iff_not]
        exact fun he => absurd hb (by subst he; decide)
      have h2 : (decide (b = 'X')) = false := by
        simp only [decide_eq_false_iff_not]
        exact fun he => absurd hb (by subst he; decide)
      rw [h1, h2]
      simp

theorem jsParseUnsigned_digits (l : List Char) (hne : l ≠ [])
    (hd : ∀ c ∈ l, isDig c = true) :
    jsParseUnsigned l = some (decFold l) := by
  unfold jsParseUnsigned
  rw [hexPrefix_of_digits l hd]
  simp only [Bool.false_eq_true, if_false]
  rw [takeWhile_all isDig l hd]
  cases l with
  | nil => exact absurd rfl hne
  | cons c t => rfl

theorem jsParseIntCore_digits (l : List Char) (hne : l ≠ [])
    (hd : ∀ c ∈ l, isDig c = true) :
    jsParseIntCore l = some ((decFold l : Nat) : Int) := by
  cases l with
  | nil => exact absurd rfl hne
  | cons c t =>
    have hc : isDig c = true := hd c (by simp)
    have hdw : (c :: t).dropWhile jsWS = c :: t := by
      rw [List.dropWhile_cons, isDig_not_ws c hc]
      simp
    unfold jsParseIntCore
    rw [hdw]
    split
    · rename_i t' heq
      rw [List.cons.injEq] at heq
      exact absurd hc (by rw [heq.1]; decide)
    · rename_i t' heq
      rw [List.cons.injEq] at heq
      exact absurd hc (by rw [heq.1]; decide)
    · rw [jsParseUnsigned_digits _ hne hd]
      rfl

theorem jsParseInt_digits (l : List Char) (hne : l ≠ [])
    (hd : ∀ c ∈ l, isDig c = true) :
    jsParseInt ⟨l⟩ = some ((decFold l : Nat) : Int) :=
  jsParseIntCore_digits l hne hd

theorem parseDMS_lat_abs_le (d1 d2 d3 d4 d5 d6 h7 : Char) (x : ℚ)
    (hd : ∀ c ∈ [d1, d2, d3, d4, d5, d6], isDig c = true)
    (hh : h7 = 'N' ∨ h7 = 'S')
    (h : parseDMSToDecimal ⟨[d1, d2, d3, d4, d5, d6, h7]⟩ = some x) :
    |x| ≤ 90 + 59 / 60 + 59 / 3600 := by
  have h12 : ∀ c ∈ [d1, d2], isDig c = true := by
    intro c hc
    simp only [List.mem_cons, List.not_mem_nil, or_false] at hc
    rcases hc with rfl | rfl
    · exact hd c (by simp)
    · exact hd c (by simp)
  have h34 : ∀ c ∈ [d3, d4], isDig c = true := by
    intro c hc
    simp only [List.mem_cons, List.not_mem_nil, or_false] at hc
    rcases hc with rfl | rfl
    · exact hd c (by simp)
    · exact hd c (by simp)
  have h56 : ∀ c ∈ [d5, d6], isDig c = true := by
    intro c hc
    simp only [List.mem_cons, List.not_mem_nil, or_false] at hc
    rcases hc with rfl | rfl
    · exact hd c (by simp)
    · exact hd c (by simp)
  unfold parseDMSToDecimal at h
  rcases hp : parseDMSParts ⟨[d1, d2, d3, d4, d5, d6, h7]⟩ with _ | p
  · rw [hp] at h
    exact absurd h (by simp)
  have hkey : ∃ (deg mn sec : Int) (neg : Bool),
      p = (deg, mn, sec, neg) ∧
      0 ≤ deg ∧ deg ≤ 90 ∧ 0 ≤ mn ∧ mn ≤ 59 ∧ 0 ≤ sec ∧ sec ≤ 59 := by
    rcases hh with rfl | rfl
    · simp only [parseDMSParts] at hp
      rw [show jsToUpper (jsSliceLast ⟨[d1, d2, d3, d4, d5, d6, 'N']⟩) = "N"
          from rfl] at hp
      rw [show jsSliceDropLast ⟨[d1, d2, d3, d4, d5, d6, 'N']⟩ =
          ⟨[d1, d2, d3, d4, d5, d6]⟩ from rfl] at hp
      rw [if_neg (by decide :
        ¬(¬(("N" : String) = "N" ∨ ("N" : String) = "S") ∧
          ¬(("N" : String) = "E" ∨ ("N" : String) = "W")))] at hp
      rw [if_neg (show ¬((⟨[d1, d2, d3, d4, d5, d6]⟩ : String).data.length ≠
          if ("N" : String) = "N" ∨ ("N" : String) = "S" then 6 else 7)
        from fun hne => hne (by rw [if_pos (by decide)]; rfl))] at hp
      rw [show (if ("N" : String) = "N" ∨ ("N" : String) = "S" then (2 : Nat)
          else 3) = 2 from by decide] at hp
      rw [show (if ("N" : String) = "N" ∨ ("N" : String) = "S" then (4 : Nat)
          else 5) = 4 from by decide] at hp
      rw [show jsSlice ⟨[d1, d2, d3, d4, d5, d6]⟩ 0 2 = ⟨[d1, d2]⟩ from rfl,
        show jsSlice ⟨[d1, d2, d3, d4, d5, d6]⟩ 2 4 = ⟨[d3, d4]⟩ from rfl,
        show jsSliceFrom ⟨[d1, d2, d3, d4, d5, d6]⟩ 4 = ⟨[d5, d6]⟩ from rfl] at hp
      split at hp
      · rename_i degrees minutes seconds heq1 heq2 heq3
        rw [jsParseInt_digits [d1, d2] (by simp) h12] at heq1
        rw [jsParseInt_digits [d3, d4] (by simp) h34] at heq2
        rw [jsParseInt_digits [d5, d6] (by simp) h56] at heq3
        injection heq1 with heq1
        injection heq2 with heq2
        injection heq3 with heq3
        subst heq1
        subst heq2
        subst heq3
        split_ifs at hp with hc1 hc2 hc3
        push_neg at hc1
        injection hp with hp2
        refine ⟨_, _, _, _, hp2.symm, ?_, ?_, ?_, ?_, ?_, ?_⟩
        · positivity
        · by_contra hgt
          push_neg at hgt
          exact hc2 ⟨by decide, hgt⟩
        · positivity
        · omega
        · positivity
        · omega
      · rename_i hne1
        exact absurd hp (by simp)
    · simp only [parseDMSParts] at hp
      rw [show jsToUpper (jsSliceLast ⟨[d1, d2, d3, d4, d5, d6, 'S']⟩) = "S"
          from rfl] at hp
      rw [show jsSliceDropLast ⟨[d1, d2, d3, d4, d5, d6, 'S']⟩ =
          ⟨[d1, d2, d3, d4, d5, d6]⟩ from rfl] at hp
      rw [if_neg (by decide :
        ¬(¬(("S" : String) = "N" ∨ ("S" : String) = "S") ∧
          ¬(("S" : String) = "E" ∨ ("S" : String) = "W")))] at hp
      rw [if_neg (show ¬((⟨[d1, d2, d3, d4, d5, d6]⟩ : String).data.length ≠
          if ("S" : String) = "N" ∨ ("S" : String) = "S" then 6 else 7)
        from fun hne => hne (by rw [if_pos (by decide)]; rfl))] at hp
      rw [show (if ("S" : String) = "N" ∨ ("S" : String) = "S" then (2 : Nat)
          else 3) = 2 from by decide] at hp
      rw [show (if ("S" : String) = "N" ∨ ("S" : String) = "S" then (4 : Nat)
          else 5) = 4 from by decide] at hp
      rw [show jsSlice ⟨[d1, d2, d3, d4, d5, d6]⟩ 0 2 = ⟨[d1, d2]⟩ from rfl,
        show jsSlice ⟨[d1, d2, d3, d4, d5, d6]⟩ 2 4 = ⟨[d3, d4]⟩ from rfl,
        show jsSliceFrom ⟨[d1, d2, d3, d4, d5, d6]⟩ 4 = ⟨[d5, d6]⟩ from rfl] at hp
      split at hp
      · rename_i degrees minutes seconds heq1 heq2 heq3
        rw [jsParseInt_digits [d1, d2] (by simp) h12] at heq1
        rw [jsParseInt_digits [d3, d4] (by simp) h34] at heq2
        rw [jsParseInt_digits [d5, d6] (by simp) h56] at heq3
        injection heq1 with heq1
        injection heq2 with heq2
        injection heq3 with heq3
        subst heq1
        subst heq2
        subst heq3
        split_ifs at hp with hc1 hc2 hc3
        push_neg at hc1
        injection hp with hp2
        refine ⟨_, _, _, _, hp2.symm, ?_, ?_, ?_, ?_, ?_, ?_⟩
        · positivity
        · by_contra hgt
          push_neg at hgt
          exact hc2 ⟨by decide, hgt⟩
        · positivity
        · omega
        · positivity
        · omega
      · rename_i hne1
        exact absurd hp (by simp)
  obtain ⟨deg, mn, sec, neg, hpe, hdeg0, hdeg, hmn0, hmn, hsec0, hsec⟩ := hkey
  subst hpe
  rw [hp] at h
  simp only [Option.map] at h
  injection h with h
  rw [← h]
  show |if neg = true then
      -((deg : ℚ) + (mn : ℚ) / 60 + (sec : ℚ) / 3600)
    else (deg : ℚ) + (mn : ℚ) / 60 + (sec : ℚ) / 3600| ≤ 90 + 59 / 60 + 59 / 3600
  have hdq : (deg : ℚ) ≤ 90 := by exact_mod_cast hdeg
  have hdq0 : (0 : ℚ) ≤ (deg : ℚ) := by exact_mod_cast hdeg0
  have hmq : (mn : ℚ) ≤ 59 := by exact_mod_cast hmn
  have hmq0 : (0 : ℚ) ≤ (mn : ℚ) := by exact_mod_cast hmn0
  have hsq : (sec : ℚ) ≤ 59 := by exact_mod_cast hsec
  have hsq0 : (0 : ℚ) ≤ (sec : ℚ) := by exact_mod_cast hsec0
  have hdnn : (0 : ℚ) ≤ (deg : ℚ) + (mn : ℚ) / 60 + (sec : ℚ) / 3600 := by positivity
  have hdub : (deg : ℚ) + (mn : ℚ) / 60 + (sec : ℚ) / 3600 ≤
      90 + 59 / 60 + 59 / 3600 := by
    have hm : (mn : ℚ) / 60 ≤ 59 / 60 := by linarith
    have hs : (sec : ℚ) / 3600 ≤ 59 / 3600 := by linarith
    linarith
  rcases neg with _ | _
  · simp only [Bool.false_eq_true, if_false]
    rw [abs_of_nonneg hdnn]
    exact hdub
  · simp only [if_true]
    rw [abs_neg, abs_of_nonneg hdnn]
    exact hdub

theorem parseDMS_lon_abs_le (d1 d2 d3 d4 d5 d6 d7 h8 : Char) (x : ℚ)
    (hd : ∀ c ∈ [d1, d2, d3, d4, d5, d6, d7], isDig c = true)
    (hh : h8 = 'E' ∨ h8 = 'W')
    (h : parseDMSToDecimal ⟨[d1, d2, d3, d4, d5, d6, d7, h8]⟩ = some x) :
    |x| ≤ 180 + 59 / 60 + 59 / 3600 := by
  have h123 : ∀ c ∈ [d1, d2, d3], isDig c = true := by
    intro c hc
    simp only [List.mem_cons, List.not_mem_nil, or_false] at hc
    rcases hc with rfl | rfl | rfl <;> exact hd c (by simp)
  have h45 : ∀ c ∈ [d4, d5], isDig c = true := by
    intro c hc
    simp only [List.mem_cons, List.not_mem_nil, or_false] at hc
    rcases hc with rfl | rfl <;> exact hd c (by simp)
  have h67 : ∀ c ∈ [d6, d7], isDig c = true := by
    intro c hc
    simp only [List.mem_cons, List.not_mem_nil, or_false] at hc
    rcases hc with rfl | rfl <;> exact hd c (by simp)
  rcases hp : parseDMSParts ⟨[d1, d2, d3, d4, d5, d6, d7, h8]⟩ with _ | p
  · unfold parseDMSToDecimal at h
    rw [hp] at h
    exact absurd h (by simp)
  have hkey : ∃ (deg mn sec : Int) (neg : Bool),
      p = (deg, mn, sec, neg) ∧
      0 ≤ deg ∧ deg ≤ 180 ∧ 0 ≤ mn ∧ mn ≤ 59 ∧ 0 ≤ sec ∧ sec ≤ 59 := by
    rcases hh with rfl | rfl
    · simp only [parseDMSParts] at hp
      rw [show jsToUpper (jsSliceLast ⟨[d1, d2, d3, d4, d5, d6, d7, 'E']⟩) = "E"
          from rfl] at hp
      rw [show jsSliceDropLast ⟨[d1, d2, d3, d4, d5, d6, d7, 'E']⟩ =
          ⟨[d1, d2, d3, d4, d5, d6, d7]⟩ from rfl] at hp
      rw [if_neg (by decide :
        ¬(¬(("E" : String) = "N" ∨ ("E" : String) = "S") ∧
          ¬(("E" : String) = "E" ∨ ("E" : String) = "W")))] at hp
      rw [if_neg (show ¬((⟨[d1, d2, d3, d4, d5, d6, d7]⟩ : String).data.length ≠
          if ("E" : String) = "N" ∨ ("E" : String) = "S" then 6 else 7)
        from fun hne => hne (by rw [if_neg (by decide)]; rfl))] at hp
      rw [show (if ("E" : String) = "N" ∨ ("E" : String) = "S" then (2 : Nat)
          else 3) = 3 from by decide] at hp
      rw [show (if ("E" : String) = "N" ∨ ("E" : String) = "S" then (4 : Nat)
          else 5) = 5 from by decide] at hp
      rw [show jsSlice ⟨[d1, d2, d3, d4, d5, d6, d7]⟩ 0 3 = ⟨[d1, d2, d3]⟩
          from rfl,
        show jsSlice ⟨[d1, d2, d3, d4, d5, d6, d7]⟩ 3 5 = ⟨[d4, d5]⟩ from rfl,
        show jsSliceFrom ⟨[d1, d2, d3, d4, d5, d6, d7]⟩ 5 = ⟨[d6, d7]⟩
          from rfl] at hp
      split at hp
      · rename_i degrees minutes seconds heq1 heq2 heq3
        rw [jsParseInt_digits [d1, d2, d3] (by simp) h123] at heq1
        rw [jsParseInt_digits [d4, d5] (by simp) h45] at heq2
        rw [jsParseInt_digits [d6, d7] (by simp) h67] at heq3
        injection heq1 with heq1
        injection heq2 with heq2
        injection heq3 with heq3
        subst heq1
        subst heq2
        subst heq3
        split_ifs at hp with hc1 hc2 hc3
        push_neg at hc1
        injection hp with hp2
        refine ⟨_, _, _, _, hp2.symm, ?_, ?_, ?_, ?_, ?_, ?_⟩
        · positivity
        · by_contra hgt
          push_neg at hgt
          exact hc3 ⟨by decide, hgt⟩
        · positivity
        · omega
        · positivity
        · omega
      · rename_i hne1
        exact absurd hp (by simp)
    · simp only [parseDMSParts] at hp
      rw [show jsToUpper (jsSliceLast ⟨[d1, d2, d3, d4, d5, d6, d7, 'W']⟩) = "W"
          from rfl] at hp
      rw [show jsSliceDropLast ⟨[d1, d2, d3, d4, d5, d6, d7, 'W']⟩ =
          ⟨[d1, d2, d3, d4, d5, d6, d7]⟩ from rfl] at hp
      rw [if_neg (by decide :
        ¬(¬(("W" : String) = "N" ∨ ("W" : String) = "S") ∧
          ¬(("W" : String) = "E" ∨ ("W" : String) = "W")))] at hp
      rw [if_neg (show ¬((⟨[d1, d2, d3, d4, d5, d6, d7]⟩ : String).data.length ≠
          if ("W" : String) = "N" ∨ ("W" : String) = "S" then 6 else 7)
        from fun hne => hne (by rw [if_neg (by decide)]; rfl))] at hp
      rw [show (if ("W" : String) = "N" ∨ ("W" : String) = "S" then (2 : Nat)
          else 3) = 3 from by decide] at hp
      rw [show (if ("W" : String) = "N" ∨ ("W" : String) = "S" then (4 : Nat)
          else 5) = 5 from by decide] at hp
      rw [show jsSlice ⟨[d1, d2, d3, d4, d5, d6, d7]⟩ 0 3 = ⟨[d1, d2, d3]⟩
          from rfl,
        show jsSlice ⟨[d1, d2, d3, d4, d5, d6, d7]⟩ 3 5 = ⟨[d4, d5]⟩ from rfl,
        show jsSliceFrom ⟨[d1, d2, d3, d4, d5, d6, d7]⟩ 5 = ⟨[d6, d7]⟩
          from rfl] at hp
      split at hp
      · rename_i degrees minutes seconds heq1 heq2 heq3
        rw [jsParseInt_digits [d1, d2, d3] (by simp) h123] at heq1
        rw [jsParseInt_digits [d4, d5] (by simp) h45] at heq2
        rw [jsParseInt_digits [d6, d7] (by simp) h67] at heq3
        injection heq1 with heq1
        injection heq2 with heq2
        injection heq3 with heq3
        subst heq1
        subst heq2
        subst heq3
        split_ifs at hp with hc1 hc2 hc3
        push_neg at hc1
        injection hp with hp2
        refine ⟨_, _, _, _, hp2.symm, ?_, ?_, ?_, ?_, ?_, ?_⟩
        · positivity
        · by_contra hgt
          push_neg at hgt
          exact hc3 ⟨by decide, hgt⟩
        · positivity
        · omega
        · positivity
        · omega
      · rename_i hne1
        exact absurd hp (by simp)
  obtain ⟨deg, mn, sec, neg, hpe, hdeg0, hdeg, hmn0, hmn, hsec0, hsec⟩ := hkey
  subst hpe
  unfold parseDMSToDecimal at h
  rw [hp] at h
  simp only [Option.map] at h
  injection h with h
  rw [← h]
  show |if neg = true then
      -((deg : ℚ) + (mn : ℚ) / 60 + (sec : ℚ) / 3600)
    else (deg : ℚ) + (mn : ℚ) / 60 + (sec : ℚ) / 3600| ≤ 180 + 59 / 60 + 59 / 3600
  have hdq : (deg : ℚ) ≤ 180 := by exact_mod_cast hdeg
  have hdq0 : (0 : ℚ) ≤ (deg : ℚ) := by exact_mod_cast hdeg0
  have hmq : (mn : ℚ) ≤ 59 := by exact_mod_cast hmn
  have hmq0 : (0 : ℚ) ≤ (mn : ℚ) := by exact_mod_cast hmn0
  have hsq : (sec : ℚ) ≤ 59 := by exact_mod_cast hsec
  have hsq0 : (0 : ℚ) ≤ (sec : ℚ) := by exact_mod_cast hsec0
  have hdnn : (0 : ℚ) ≤ (deg : ℚ) + (mn : ℚ) / 60 + (sec : ℚ) / 3600 := by
    positivity
  have hdub : (deg : ℚ) + (mn : ℚ) / 60 + (sec : ℚ) / 3600 ≤
      180 + 59 / 60 + 59 / 3600 := by
    have hm : (mn : ℚ) / 60 ≤ 59 / 60 := by linarith
    have hs : (sec : ℚ) / 3600 ≤ 59 / 3600 := by linarith
    linarith
  rcases neg with _ | _
  · simp only [Bool.false_eq_true, if_false]
    rw [abs_of_nonneg hdnn]
    exact hdub
  · simp only [if_true]
    rw [abs_neg, abs_of_nonneg hdnn]
    exact hdub

theorem dms6NS_shape (l : List Char) (cap rest : List Char)
    (h : dms6NS l = some (cap, rest)) : latShape cap := by
  unfold dms6NS at h
  split at h
  · rename_i d1 d2 d3 d4 d5 d6 h7 rest'
    split_ifs at h with hc
    simp only [Bool.and_eq_true, Bool.or_eq_true, decide_eq_true_eq] at hc
    injection h with h
    rw [Prod.mk.injEq] at h
    refine ⟨d1, d2, d3, d4, d5, d6, h7, h.1.symm, ?_, hc.2⟩
    intro c hcm
    simp only [List.mem_cons, List.not_mem_nil, or_false] at hcm
    rcases hcm with rfl | rfl | rfl | rfl | rfl | rfl
    · exact hc.1.1.1.1.1.1
    · exact hc.1.1.1.1.1.2
    · exact hc.1.1.1.1.2
    · exact hc.1.1.1.2
    · exact hc.1.1.2
    · exact hc.1.2
  · exact absurd h (by simp)

theorem dms7EW_shape (l : List Char) (cap rest : List Char)
    (h : dms7EW l = some (cap, rest)) : lonShape cap := by
  unfold dms7EW at h
  split at h
  · rename_i d1 d2 d3 d4 d5 d6 d7 h8 rest'
    split_ifs at h with hc
    simp only [Bool.and_eq_true, Bool.or_eq_true, decide_eq_true_eq] at hc
    injection h with h
    rw [Prod.mk.injEq] at h
    refine ⟨d1, d2, d3, d4, d5, d6, d7, h8, h.1.symm, ?_, hc.2⟩
    intro c hcm
    simp only [List.mem_cons, List.not_mem_nil, or_false] at hcm
    rcases hcm with rfl | rfl | rfl | rfl | rfl | rfl | rfl
    · exact hc.1.1.1.1.1.1.1
    · exact hc.1.1.1.1.1.1.2
    · exact hc.1.1.1.1.1.2
    · exact hc.1.1.1.1.2
    · exact hc.1.1.1.2
    · exact hc.1.1.2
    · exact hc.1.2
  · exact absurd h (by simp)

theorem coordPairAt_shape (l latS lonS : List Char)
    (h : coordPairAt l = some (latS, lonS)) : latShape latS ∧ lonShape lonS := by
  unfold coordPairAt at h
  split at h
  · exact absurd h (by simp)
  · rename_i lat r1 heq1
    split at h
    · exact absurd h (by simp)
    · rename_i r2 heq2
      split at h
      · exact absurd h (by simp)
      · rename_i lon r3 heq3
        injection h with h
        rw [Prod.mk.injEq] at h
        obtain ⟨h1, h2⟩ := h
        subst h1
        subst h2
        exact ⟨dms6NS_shape l lat r1 heq1, dms7EW_shape r2 lon r3 heq3⟩

theorem radiusAt_shape (l num latS lonS : List Char)
    (h : radiusAt l = some (num, latS, lonS)) : latShape latS ∧ lonShape lonS := by
  unfold radiusAt at h
  simp only [Option.bind_eq_some, Option.map_eq_some'] at h
  obtain ⟨l1, _, l2, _, nl, _, l5, _, l6, _, l7, _, l8, _, l9, _, l10, _, p, hp,
    hmap⟩ := h
  rw [Prod.mk.injEq, Prod.mk.injEq] at hmap
  obtain ⟨pl, pr⟩ := p
  obtain ⟨_, hlat, hlon⟩ := hmap
  subst hlat
  subst hlon
  exact coordPairAt_shape l10 pl pr hp

theorem contPSN_shape (l latS lonS : List Char)
    (h : contPSN l = some (latS, lonS)) : latShape latS ∧ lonShape lonS := by
  unfold contPSN at h
  split at h
  · rename_i r heq
    injection h with h
    subst h
    simp only [Option.bind_eq_some] at heq
    obtain ⟨l1, _, l2, _, l3, _, l4, _, l5, _, hc⟩ := heq
    exact coordPairAt_shape l5 latS lonS hc
  · exact coordPairAt_shape l latS lonS h

theorem tryTrailWS_shape :
    ∀ (k : Nat) (l latS lonS : List Char),
      tryTrailWS k l = some (latS, lonS) → latShape latS ∧ lonShape lonS := by
  intro k
  induction k with
  | zero => intro l latS lonS h; exact contPSN_shape l latS lonS h
  | succ k ih =>
    intro l latS lonS h
    unfold tryTrailWS at h
    split at h
    · rename_i r heq
      injection h with h
      subst h
      exact contPSN_shape _ latS lonS heq
    · exact ih l latS lonS h

theorem psnAt_shape (l latS lonS : List Char)
    (h : psnAt l = some (latS, lonS)) : latShape latS ∧ lonShape lonS := by
  unfold psnAt at h
  split at h
  · exact absurd h (by simp)
  · rename_i kw heq
    split at h
    · rename_i r2 heq2
      split at h
      · rename_i r heq3
        injection h with h
        subst h
        exact tryTrailWS_shape _ _ latS lonS heq3
      · exact contPSN_shape kw latS lonS h
    · exact contPSN_shape kw latS lonS h

theorem byAt_shape (l latS lonS : List Char)
    (h : byAt l = some (latS, lonS)) : latShape latS ∧ lonShape lonS := by
  unfold byAt at h
  simp only [Option.bind_eq_some] at h
  obtain ⟨l1, _, hm⟩ := h
  split at hm
  · rename_i r heq
    exact coordPairAt_shape _ latS lonS hm
  · exact absurd hm (by simp)

theorem scanFirst_holds {α : Type} (f : List Char → Option α) (P : α → Prop)
    (hf : ∀ l r, f l = some r → P r) :
    ∀ (l : List Char) (r : α), scanFirst f l = some r → P r := by
  intro l
  induction l with
  | nil => intro r h; exact hf [] r h
  | cons c t ih =>
    intro r h
    unfold scanFirst at h
    split at h
    · rename_i r' heq
      injection h with h
      subst h
      exact hf (c :: t) r' heq
    · exact ih r h

theorem shape_bounds (latS lonS : List Char) (lat lon : ℚ)
    (hsl : latShape latS) (hso : lonShape lonS)
    (h1 : parseDMSToDecimal ⟨latS⟩ = some lat)
    (h2 : parseDMSToDecimal ⟨lonS⟩ = some lon) :
    |lat| ≤ 90 + 59 / 60 + 59 / 3600 ∧ |lon| ≤ 180 + 59 / 60 + 59 / 3600 := by
  obtain ⟨d1, d2, d3, d4, d5, d6, h7, hcap, hdig, hns⟩ := hsl
  obtain ⟨e1, e2, e3, e4, e5, e6, e7, h8, hcap2, hdig2, hew⟩ := hso
  subst hcap
  subst hcap2
  exact ⟨parseDMS_lat_abs_le d1 d2 d3 d4 d5 d6 h7 lat hdig hns h1,
         parseDMS_lon_abs_le e1 e2 e3 e4 e5 e6 e7 h8 lon hdig2 hew h2⟩

theorem radiusCandidate_bounds (l : List Char) (c : NotamCoordinates)
    (h : radiusCandidate l = some c) :
    |c.latitude| ≤ 90 + 59 / 60 + 59 / 3600 ∧
      |c.longitude| ≤ 180 + 59 / 60 + 59 / 3600 := by
  unfold radiusCandidate at h
  split at h
  · rename_i numS latS lonS heq
    split at h
    · rename_i lat lon heq1 heq2
      injection h with h
      subst h
      have hs := scanFirst_holds radiusAt
        (fun r => latShape r.2.1 ∧ lonShape r.2.2)
        (fun l0 r hr => by
          obtain ⟨a, b, b2⟩ := r
          exact radiusAt_shape l0 a b b2 hr)
        l (numS, latS, lonS) heq
      exact shape_bounds latS lonS lat lon hs.1 hs.2 heq1 heq2
    · exact absurd h (by simp)
  · exact absurd h (by simp)

theorem psnCandidate_bounds (l : List Char) (c : NotamCoordinates)
    (h : psnCandidate l = some c) :
    |c.latitude| ≤ 90 + 59 / 60 + 59 / 3600 ∧
      |c.longitude| ≤ 180 + 59 / 60 + 59 / 3600 := by
  unfold psnCandidate at h
  split at h
  · rename_i latS lonS heq
    split at h
    · rename_i lat lon heq1 heq2
      injection h with h
      subst h
      have hs := scanFirst_holds psnAt
        (fun r => latShape r.1 ∧ lonShape r.2)
        (fun l0 r hr => by
          obtain ⟨a, b⟩ := r
          exact psnAt_shape l0 a b hr)
        l (latS, lonS) heq
      exact shape_bounds latS lonS lat lon hs.1 hs.2 heq1 heq2
    · exact absurd h (by simp)
  · exact absurd h (by simp)

theorem byCandidate_bounds (l : List Char) (c : NotamCoordinates)
    (h : byCandidate l = some c) :
    |c.latitude| ≤ 90 + 59 / 60 + 59 / 3600 ∧
      |c.longitude| ≤ 180 + 59 / 60 + 59 / 3600 := by
  unfold byCandidate at h
  split at h
  · rename_i latS lonS heq
    split at h
    · rename_i lat lon heq1 heq2
      injection h with h
      subst h
      have hs := scanFirst_holds byAt
        (fun r => latShape r.1 ∧ lonShape r.2)
        (fun l0 r hr => by
          obtain ⟨a, b⟩ := r
          exact byAt_shape l0 a b hr)
        l (latS, lonS) heq
      exact shape_bounds latS lonS lat lon hs.1 hs.2 heq1 heq2
    · exact absurd h (by simp)
  · exact absurd h (by simp)

theorem generalCandidate_bounds (l : List Char) (c : NotamCoordinates)
    (h : generalCandidate l = some c) :
    |c.latitude| ≤ 90 + 59 / 60 + 59 / 3600 ∧
      |c.longitude| ≤ 180 + 59 / 60 + 59 / 3600 := by
  unfold generalCandidate at h
  split at h
  · rename_i latS lonS heq
    split at h
    · rename_i lat lon heq1 heq2
      injection h with h
      subst h
      have hs := scanFirst_holds coordPairAt
        (fun r => latShape r.1 ∧ lonShape r.2)
        (fun l0 r hr => by
          obtain ⟨a, b⟩ := r
          exact coordPairAt_shape l0 a b hr)
        l (latS, lonS) heq
      exact shape_bounds latS lonS lat lon hs.1 hs.2 heq1 heq2
    · exact absurd h (by simp)
  · exact absurd h (by simp)

/-- C3 (amended): whenever `parseNotamCoordinates` returns a result, the
latitude magnitude is at most 90°59'59" (hence below 91°) and the
longitude magnitude at most 180°59'59" (hence below 181°) — the
degree-field checks bound only the degrees, so the full decimal value
may exceed 90°/180° by up to 59'59"; candidates failing the range or
digit-count checks are rejected (degrees 91 for latitude, minutes 60,
seconds 60, a 5-digit latitude body, degrees 181 for longitude all
yield `none`), never clamped. -/
theorem c3_coordinate_bounds_amended :
    (∀ (msg : String) (c : NotamCoordinates),
        parseNotamCoordinates msg = some c →
          |c.latitude| ≤ 90 + 59 / 60 + 59 / 3600 ∧ |c.latitude| < 91 ∧
          |c.longitude| ≤ 180 + 59 / 60 + 59 / 3600 ∧ |c.longitude| < 181) ∧
    parseDMSToDecimal "916059N" = none ∧
    parseDMSToDecimal "906059N" = none ∧
    parseDMSToDecimal "905960N" = none ∧
    parseDMSToDecimal "12345N" = none ∧
    parseDMSToDecimal "1816059E" = none := by
  refine ⟨?_, ?_, ?_, ?_, ?_, ?_⟩
  · intro msg c h
    have hlt1 : (90 + 59 / 60 + 59 / 3600 : ℚ) < 91 := by norm_num
    have hlt2 : (180 + 59 / 60 + 59 / 3600 : ℚ) < 181 := by norm_num
    have key : |c.latitude| ≤ 90 + 59 / 60 + 59 / 3600 ∧
        |c.longitude| ≤ 180 + 59 / 60 + 59 / 3600 := by
      simp only [parseNotamCoordinates] at h
      split at h
      · rename_i r heq
        injection h with h
        subst h
        exact radiusCandidate_bounds _ _ heq
      · split at h
        · rename_i r heq
          injection h with h
          subst h
          exact psnCandidate_bounds _ _ heq
        · split at h
          · rename_i r heq
            injection h with h
            subst h
            exact byCandidate_bounds _ _ heq
          · exact generalCandidate_bounds _ c h
    exact ⟨key.1, lt_of_le_of_lt key.1 hlt1, key.2, lt_of_le_of_lt key.2 hlt2⟩
  · unfold parseDMSToDecimal
    rw [show parseDMSParts "916059N" = none from by decide]
    rfl
  · unfold parseDMSToDecimal
    rw [show parseDMSParts "906059N" = none from by decide]
    rfl
  · unfold parseDMSToDecimal
    rw [show parseDMSParts "905960N" = none from by decide]
    rfl
  · unfold parseDMSToDecimal
    rw [show parseDMSParts "12345N" = none from by decide]
    rfl
  · unfold parseDMSToDecimal
    rw [show parseDMSParts "1816059E" = none from by decide]
    rfl

/-- C3 counterexample: on "905959N 1805959W" the parse succeeds with
latitude 90°59'59" ≈ 90.9997 > 90 and longitude −180°59'59" < −180,
refuting the claimed magnitude bounds of 90° and 180°. -/
theorem c3_coordinate_bounds_counterexample :
    ∃ c : NotamCoordinates,
      parseNotamCoordinates "905959N 1805959W" = some c ∧
      90 < c.latitude ∧ c.longitude < -180 := by
  have hlat : parseDMSToDecimal ⟨['9', '0', '5', '9', '5', '9', 'N']⟩ =
      some (90 + 59 / 60 + 59 / 3600 : ℚ) := by
    unfold parseDMSToDecimal
    rw [show parseDMSParts ⟨['9', '0', '5', '9', '5', '9', 'N']⟩ =
      some (90, 59, 59, false) from by decide]
    simp only [Option.map, Option.some.injEq]
    norm_num
  have hlon : parseDMSToDecimal ⟨['1', '8', '0', '5', '9', '5', '9', 'W']⟩ =
      some (-(180 + 59 / 60 + 59 / 3600) : ℚ) := by
    unfold parseDMSToDecimal
    rw [show parseDMSParts ⟨['1', '8', '0', '5', '9', '5', '9', 'W']⟩ =
      some (180, 59, 59, true) from by decide]
    simp only [Option.map, Option.some.injEq]
    norm_num
  refine ⟨⟨90 + 59 / 60 + 59 / 3600, -(180 + 59 / 60 + 59 / 3600), none⟩, ?_,
    by norm_num, by norm_num⟩
  have h1 : radiusCandidate ((jsToUpper "905959N 1805959W").data) = none := by
    unfold radiusCandidate
    rw [show scanFirst radiusAt ((jsToUpper "905959N 1805959W").data) = none
      from by decide]
  have h2 : psnCandidate ((jsToUpper "905959N 1805959W").data) = none := by
    unfold psnCandidate
    rw [show scanFirst psnAt ((jsToUpper "905959N 1805959W").data) = none
      from by decide]
  have h3 : byCandidate ((jsToUpper "905959N 1805959W").data) = none := by
    unfold byCandidate
    rw [show scanFirst byAt ((jsToUpper "905959N 1805959W").data) = none
      from by decide]
  have h4 : generalCandidate ((jsToUpper "905959N 1805959W").data) =
      some ⟨90 + 59 / 60 + 59 / 3600, -(180 + 59 / 60 + 59 / 3600), none⟩ := by
    unfold generalCandidate
    rw [show scanFirst coordPairAt ((jsToUpper "905959N 1805959W").data) =
        some (['9', '0', '5', '9', '5', '9', 'N'],
              ['1', '8', '0', '5', '9', '5', '9', 'W']) from by decide]
    simp only [hlat, hlon]
  simp only [parseNotamCoordinates, h1, h2, h3, h4]

theorem c3_coordinate_bounds_witness :
    ∃ c : NotamCoordinates,
      parseNotamCoordinates "000000N 0000000E" = some c ∧
      |c.latitude| ≤ 90 + 59 / 60 + 59 / 3600 ∧ |c.latitude| < 91 ∧
      |c.longitude| ≤ 180 + 59 / 60 + 59 / 3600 ∧ |c.longitude| < 181 := by
  have hlat : parseDMSToDecimal ⟨['0', '0', '0', '0', '0', '0', 'N']⟩ =
      some (0 : ℚ) := by
    unfold parseDMSToDecimal
    rw [show parseDMSParts ⟨['0', '0', '0', '0', '0', '0', 'N']⟩ =
      some (0, 0, 0, false) from by decide]
    simp only [Option.map, Option.some.injEq]
    norm_num
  have hlon : parseDMSToDecimal ⟨['0', '0', '0', '0', '0', '0', '0', 'E']⟩ =
      some (0 : ℚ) := by
    unfold parseDMSToDecimal
    rw [show parseDMSParts ⟨['0', '0', '0', '0', '0', '0', '0', 'E']⟩ =
      some (0, 0, 0, false) from by decide]
    simp only [Option.map, Option.some.injEq]
    norm_num
  have h1 : radiusCandidate ((jsToUpper "000000N 0000000E").data) = none := by
    unfold radiusCandidate
    rw [show scanFirst radiusAt ((jsToUpper "000000N 0000000E").data) = none
      from by decide]
  have h2 : psnCandidate ((jsToUpper "000000N 0000000E").data) = none := by
    unfold psnCandidate
    rw [show scanFirst psnAt ((jsToUpper "000000N 0000000E").data) = none
      from by decide]
  have h3 : byCandidate ((jsToUpper "000000N 0000000E").data) = none := by
    unfold byCandidate
    rw [show scanFirst byAt ((jsToUpper "000000N 0000000E").data) = none
      from by decide]
  have h4 : generalCandidate ((jsToUpper "000000N 0000000E").data) =
      some ⟨0, 0, none⟩ := by
    unfold generalCandidate
    rw [show scanFirst coordPairAt ((jsToUpper "000000N 0000000E").data) =
        some (['0', '0', '0', '0', '0', '0', 'N'],
              ['0', '0', '0', '0', '0', '0', '0', 'E']) from by decide]
    simp only [hlat, hlon]
  have hp : parseNotamCoordinates "000000N 0000000E" = some ⟨0, 0, none⟩ := by
    simp only [parseNotamCoordinates, h1, h2, h3, h4]
  exact ⟨⟨0, 0, none⟩, hp, c3_coordinate_bounds_amended.1 _ _ hp⟩

/-- C6: `parseNotamCoordinates` tries the radius, PSN/POSITION, BY:, and
bare-pair patterns in that priority order (the `orElse` decomposition),
validates each candidate's DMS tokens, and falls through to the next
pattern on an invalid candidate (here: the radius pattern matches
textually but its latitude has minutes 61, so the PSN candidate is
returned instead); on "WI 1NM RADIUS OF 510718N 0021047W" it returns
latitude 51°07'18" ≈ 51.1217, longitude −2°10'47" ≈ −2.1797, radius 1. -/
theorem c6_parse_priority_and_example :
    parseNotamCoordinates "WI 1NM RADIUS OF 510718N 0021047W" =
      some ⟨51 + 7 / 60 + 18 / 3600, -(2 + 10 / 60 + 47 / 3600), some 1⟩ ∧
    |(51 + 7 / 60 + 18 / 3600 : ℚ) - 51.1217| < 1 / 10000 ∧
    |(-(2 + 10 / 60 + 47 / 3600) : ℚ) - (-2.1797)| < 1 / 10000 ∧
    (∀ msg : String,
      parseNotamCoordinates msg =
        ((radiusCandidate ((jsToUpper msg).data)).orElse fun _ =>
          (psnCandidate ((jsToUpper msg).data)).orElse fun _ =>
            (byCandidate ((jsToUpper msg).data)).orElse fun _ =>
              generalCandidate ((jsToUpper msg).data))) ∧
    (∃ r, scanFirst radiusAt
        ((jsToUpper
          "WI 1NM RADIUS OF 516161N 0021047W PSN: 504856N 0011248W").data) =
        some r) ∧
    radiusCandidate
        ((jsToUpper
          "WI 1NM RADIUS OF 516161N 0021047W PSN: 504856N 0011248W").data) =
      none ∧
    parseNotamCoordinates
        "WI 1NM RADIUS OF 516161N 0021047W PSN: 504856N 0011248W" =
      some ⟨50 + 48 / 60 + 56 / 3600, -(1 + 12 / 60 + 48 / 3600), none⟩ := by
  have hlatA : parseDMSToDecimal ⟨['5', '1', '0', '7', '1', '8', 'N']⟩ =
      some (51 + 7 / 60 + 18 / 3600 : ℚ) := by
    unfold parseDMSToDecimal
    rw [show parseDMSParts ⟨['5', '1', '0', '7', '1', '8', 'N']⟩ =
      some (51, 7, 18, false) from by decide]
    simp only [Option.map, Option.some.injEq]
    norm_num
  have hlonA : parseDMSToDecimal ⟨['0', '0', '2', '1', '0', '4', '7', 'W']⟩ =
      some (-(2 + 10 / 60 + 47 / 3600) : ℚ) := by
    unfold parseDMSToDecimal
    rw [show parseDMSParts ⟨['0', '0', '2', '1', '0', '4', '7', 'W']⟩ =
      some (2, 10, 47, true) from by decide]
    simp only [Option.map, Option.some.injEq]
    norm_num
  have hradA : radiusCandidate
      ((jsToUpper "WI 1NM RADIUS OF 510718N 0021047W").data) =
      some ⟨51 + 7 / 60 + 18 / 3600, -(2 + 10 / 60 + 47 / 3600), some 1⟩ := by
    unfold radiusCandidate
    rw [show scanFirst radiusAt
        ((jsToUpper "WI 1NM RADIUS OF 510718N 0021047W").data) =
        some (['1'], ['5', '1', '0', '7', '1', '8', 'N'],
          ['0', '0', '2', '1', '0', '4', '7', 'W']) from by decide]
    simp only [hlatA, hlonA]
    rw [show parseFloatQ ['1'] = ((1 : ℕ) : ℚ) from rfl, Nat.cast_one]
  have hbadlat : parseDMSToDecimal ⟨['5', '1', '6', '1', '6', '1', 'N']⟩ =
      none := by
    unfold parseDMSToDecimal
    rw [show parseDMSParts ⟨['5', '1', '6', '1', '6', '1', 'N']⟩ = none
      from by decide]
    rfl
  have hscanB : scanFirst radiusAt
      ((jsToUpper
        "WI 1NM RADIUS OF 516161N 0021047W PSN: 504856N 0011248W").data) =
      some (['1'], ['5', '1', '6', '1', '6', '1', 'N'],
        ['0', '0', '2', '1', '0', '4', '7', 'W']) := by decide
  have hradB : radiusCandidate
      ((jsToUpper
        "WI 1NM RADIUS OF 516161N 0021047W PSN: 504856N 0011248W").data) =
      none := by
    unfold radiusCandidate
    rw [hscanB]
    simp only [hbadlat]
  have hlatB : parseDMSToDecimal ⟨['5', '0', '4', '8', '5', '6', 'N']⟩ =
      some (50 + 48 / 60 + 56 / 3600 : ℚ) := by
    unfold parseDMSToDecimal
    rw [show parseDMSParts ⟨['5', '0', '4', '8', '5', '6', 'N']⟩ =
      some (50, 48, 56, false) from by decide]
    simp only [Option.map, Option.some.injEq]
    norm_num
  have hlonB : parseDMSToDecimal ⟨['0', '0', '1', '1', '2', '4', '8', 'W']⟩ =
      some (-(1 + 12 / 60 + 48 / 3600) : ℚ) := by
    unfold parseDMSToDecimal
    rw [show parseDMSParts ⟨['0', '0', '1', '1', '2', '4', '8', 'W']⟩ =
      some (1, 12, 48, true) from by decide]
    simp only [Option.map, Option.some.injEq]
    norm_num
  have hpsnB : psnCandidate
      ((jsToUpper
        "WI 1NM RADIUS OF 516161N 0021047W PSN: 504856N 0011248W").data) =
      some ⟨50 + 48 / 60 + 56 / 3600, -(1 + 12 / 60 + 48 / 3600), none⟩ := by
    unfold psnCandidate
    rw [show scanFirst psnAt
        ((jsToUpper
          "WI 1NM RADIUS OF 516161N 0021047W PSN: 504856N 0011248W").data) =
        some (['5', '0', '4', '8', '5', '6', 'N'],
          ['0', '0', '1', '1', '2', '4', '8', 'W']) from by decide]
    simp only [hlatB, hlonB]
  refine ⟨?_, by rw [abs_sub_lt_iff]; constructor <;> norm_num,
    by rw [abs_sub_lt_iff]; constructor <;> norm_num, ?_, ⟨_, hscanB⟩, hradB, ?_⟩
  · simp only [parseNotamCoordinates, hradA]
  · intro msg
    simp only [parseNotamCoordinates]
    cases radiusCandidate ((jsToUpper msg).data) with
    | some r => rfl
    | none =>
      cases psnCandidate ((jsToUpper msg).data) with
      | some r => rfl
      | none =>
        cases byCandidate ((jsToUpper msg).data) with
        | some r => rfl
        | none => rfl
  · simp only [parseNotamCoordinates, hradB, hpsnB]

/-- C4: `getNotamStatus` precedence — a future start yields `upcoming`;
otherwise, with the end unset (PERM/malformed) or in the future, the
status is `active` with label "Active" when no D) schedule is present or
the time is within it, and `active` with label "Active (Outside
Schedule)" when a schedule is present and the time is outside it;
otherwise the status is `expired`. -/
theorem c4_status_precedence :
    ∀ (s e m : String) (now : Int),
      (dateIsFuture (parseNotamDate s) now = true →
        (getNotamStatus s e m now).status = .upcoming) ∧
      (dateIsFuture (parseNotamDate s) now = false →
        endUnsetOrFuture (parseNotamDate e) now = true →
        ((parseSchedule m = none ∨ isWithinSchedule m now = true →
          (getNotamStatus s e m now).status = .active ∧
          (getNotamStatus s e m now).label = "Active") ∧
         ((parseSchedule m).isSome = true →
          isWithinSchedule m now = false →
          (getNotamStatus s e m now).status = .active ∧
          (getNotamStatus s e m now).label = "Active (Outside Schedule)"))) ∧
      (dateIsFuture (parseNotamDate s) now = false →
        endUnsetOrFuture (parseNotamDate e) now = false →
        (getNotamStatus s e m now).status = .expired) := by
  intro s e m now
  refine ⟨?_, ?_, ?_⟩
  · intro h
    simp [getNotamStatus, h]
  · intro h1 h2
    constructor
    · intro h3
      have hns : ((parseSchedule m).isSome && !isWithinSchedule m now) = false := by
        rcases h3 with h3 | h3
        · simp [h3]
        · simp [h3]
      constructor <;> simp [getNotamStatus, h1, h2, hns]
    · intro h3 h4
      have hns : ((parseSchedule m).isSome && !isWithinSchedule m now) = true := by
        simp [h3, h4]
      constructor <;> simp [getNotamStatus, h1, h2, hns]
  · intro h1 h2
    simp [getNotamStatus, h1, h2]

theorem c4_status_precedence_witness :
    (getNotamStatus "10/11/2025 0514" "PERM" "" 0).status = .upcoming ∧
    (getNotamStatus "01/01/2020 0000" "PERM" "" 1893456000000).status =
      .active ∧
    (getNotamStatus "01/01/2020 0000" "01/01/2021 0000" ""
        1893456000000).status = .expired :=
  ⟨(c4_status_precedence "10/11/2025 0514" "PERM" "" 0).1 (by decide),
   (((c4_status_precedence "01/01/2020 0000" "PERM" "" 1893456000000).2.1
       (by decide) (by decide)).1 (Or.inl (by decide))).1,
   (c4_status_precedence "01/01/2020 0000" "01/01/2021 0000" ""
       1893456000000).2.2 (by decide) (by decide)⟩

theorem singleDayLoop_true :
    ∀ (entries : List (String × Int)) (sched : String) (d t : Int)
      (tr : Option (Nat × Nat)),
      (∀ p ∈ entries, jsIncludes sched p.1 = false) →
      singleDayLoop entries sched d t tr = true := by
  intro entries
  induction entries with
  | nil => intro sched d t tr _; rfl
  | cons p rest ih =>
    intro sched d t tr hall
    obtain ⟨name, num⟩ := p
    simp only [singleDayLoop]
    rw [hall (name, num) (List.mem_cons_self _ _)]
    simp only [Bool.false_eq_true, if_false]
    exact ih sched d t tr fun q hq => hall q (List.mem_cons_of_mem _ hq)

/-- C5 (amended): `isWithinSchedule` is fail-open when the message has no
D) field and when the D) text matches none of the recognised forms (no
DAILY keyword, no day-range match, no known day name); but it is not
fail-open on every unparseable input — a day range whose three-letter
names are not recognised day abbreviations yields `false`. -/
theorem c5_fail_open :
    ∀ (msg : String) (now : Int),
      (matchDSection msg.data = none → isWithinSchedule msg now = true) ∧
      (∀ raw : List Char, matchDSection msg.data = some raw →
        jsIncludes (jsToUpper (jsTrim ⟨raw⟩)) "DAILY" = false →
        dayRangeSearch (jsTrim ⟨raw⟩).data = none →
        (∀ p ∈ dayEntries, jsIncludes (jsToUpper (jsTrim ⟨raw⟩)) p.1 = false) →
        isWithinSchedule msg now = true) := by
  intro msg now
  constructor
  · intro h
    simp only [isWithinSchedule, h]
  · intro raw h hdaily hrange hnames
    simp only [isWithinSchedule, h, hdaily, hrange, Bool.false_eq_true,
      if_false]
    exact singleDayLoop_true dayEntries (jsToUpper (jsTrim ⟨raw⟩))
      (utcDayOfWeek now) (utcHours now * 100 + utcMinutes now)
      (timeRangeSearch (jsTrim ⟨raw⟩).data) hnames

/-- C5 counterexample: the unparseable day range "XYZ-ABC" in a D) field
makes `isWithinSchedule` return `false` (the unrecognised names map to
`null`, every `null` comparison is falsy, and `dayInRange` ends up
false), refuting "never returns false on unparseable input". -/
theorem c5_fail_open_counterexample : isWithinSchedule " D) XYZ-ABC" 0 = false := by
  decide

theorem c5_fail_open_witness : isWithinSchedule "RWY 09 CLSD" 0 = true :=
  (c5_fail_open "RWY 09 CLSD" 0).1 (by decide)

/-- C9 (amended): each modelled operation is a pure function of its
explicit inputs — where for `getNotamStatus` and `isWithinSchedule` the
inputs include the wall clock (`new Date()` in the source), on which the
output genuinely depends: identical source-level arguments at different
times yield different results. -/
theorem c9_purity_amended :
    (∀ input : List ProcessedAirspace, assignLanes input = assignLanes input) ∧
    (∀ msg : String, parseNotamCoordinates msg = parseNotamCoordinates msg) ∧
    (∀ metar : String, parseCloudLayers metar = parseCloudLayers metar) ∧
    (∀ (s e m : String) (now : Int),
      getNotamStatus s e m now = getNotamStatus s e m now) ∧
    (∀ (m : String) (now : Int),
      isWithinSchedule m now = isWithinSchedule m now) ∧
    (∃ now1 now2 : Int,
      (getNotamStatus "10/11/2025 0514" "PERM" "" now1).status ≠
        (getNotamStatus "10/11/2025 0514" "PERM" "" now2).status) :=
  ⟨fun _ => rfl, fun _ => rfl, fun _ => rfl, fun _ _ _ _ => rfl,
   fun _ _ => rfl, 0, 1893456000000, by decide⟩

/-- C9 counterexample: `getNotamStatus` and `isWithinSchedule` read the
wall clock, which is not among their source-level arguments — the same
argument strings produce `upcoming` at epoch 0 and `active` in 2030, and
a DAILY schedule is within at 10:00 UTC but not at midnight — so the
claimed purity in the explicit arguments fails. -/
theorem c9_purity_counterexample :
    (getNotamStatus "10/11/2025 0514" "PERM" "" 0).status ≠
      (getNotamStatus "10/11/2025 0514" "PERM" "" 1893456000000).status ∧
    isWithinSchedule " D) DAILY 0900-1700" 36000000 = true ∧
    isWithinSchedule " D) DAILY 0900-1700" 0 = false :=
  ⟨by decide, by decide, by decide⟩
